import Mathlib

/-!
Shallow embedding of the Private DNS configuration tracker of
`packages/modules/DnsResolver/PrivateDnsConfiguration.cpp`.

The manager state (`PrivateDnsConfiguration`) holds the per-network mode map,
the per-network tracker of `DnsTlsServer` records keyed by `ServerIdentity`,
the bounded audit log, and the observer flag.  Operations are translated from
the C++ source as pure state transformers that additionally report their
effects: spawned validation workers, observer notifications, and listener
events.  `getaddrinfo`-based address parsing is an external collaborator and
is abstracted as a `String → Option String` parameter; timestamps are
abstracted as a `now : Nat` argument to the operations that append audit
records.
-/

/-- Validation states of a private DNS server record (`Validation` enum). -/
inductive Validation where
  | unknown_server
  | in_process
  | success
  | success_but_expired
  | fail
deriving DecidableEq

/-- Per-network private DNS mode (`PrivateDnsMode`). -/
inductive PrivateDnsMode where
  | off
  | opportunistic
  | strict
deriving DecidableEq

/-- Modelled from the spec: the `DnsTlsServer` record (its defining header is
not under `src/`).  Per spec section 3 it carries the identity-derived address,
the provider name, certificate material, the routing mark, the `active` flag
and the validation state.  The parsed socket address is abstracted as a
string. -/
structure DnsTlsServer where
  sockaddr : String
  name : String
  certificate : String
  mark : Nat
  active : Bool
  validationState : Validation
deriving DecidableEq

/-- Modelled from the spec: `ServerIdentity` is the (address, provider) pair
with structural equality (its defining header is not under `src/`). -/
structure ServerIdentity where
  sockaddr : String
  provider : String
deriving DecidableEq

/-- The `ServerIdentity(server)` constructor: identity of a record. -/
def ServerIdentity.of (s : DnsTlsServer) : ServerIdentity :=
  ⟨s.sockaddr, s.name⟩

/-- Modelled from the spec: `DnsTlsServer::operator==` compares address,
provider, certificate material and mark (spec section 3; the operator is
declared in a header that is not under `src/`). -/
def serverEq (a b : DnsTlsServer) : Bool :=
  decide (a.sockaddr = b.sockaddr ∧ a.name = b.name ∧
    a.certificate = b.certificate ∧ a.mark = b.mark)

/-- Association-list lookup, mirroring `std::map::find`. -/
def alookup {α β : Type} [DecidableEq α] : List (α × β) → α → Option β
  | [], _ => none
  | p :: l, a => if a = p.1 then some p.2 else alookup l a

/-- Association-list write, mirroring `std::map::operator[] = v`: replaces the
binding if the key is present, otherwise appends it. -/
def aset {α β : Type} [DecidableEq α] (a : α) (b : β) : List (α × β) → List (α × β)
  | [] => [(a, b)]
  | p :: l => if a = p.1 then (a, b) :: l else p :: aset a b l

/-- Association-list in-place update of an existing binding. -/
def aupd {α β : Type} [DecidableEq α] (a : α) (f : β → β) : List (α × β) → List (α × β)
  | [] => []
  | p :: l => if a = p.1 then (a, f p.2) :: l else p :: aupd a f l

/-- Association-list erase, mirroring `std::map::erase(key)`. -/
def aerase {α β : Type} [DecidableEq α] (a : α) : List (α × β) → List (α × β)
  | [] => []
  | p :: l => if a = p.1 then aerase a l else p :: aerase a l

/-- Keys of an association list. -/
def akeys {α β : Type} (l : List (α × β)) : List α :=
  l.map Prod.fst

/-- A per-network tracker: `ServerIdentity → DnsTlsServer` map. -/
abbrev Tracker := List (ServerIdentity × DnsTlsServer)

/-- An observer notification `(ip string, state, netId)` delivered by
`notifyValidationStateUpdate`. -/
abbrev ObsNote := String × Validation × Nat

/-- A listener broadcast `(netId, ip string, hostname, success)` delivered by
`sendPrivateDnsValidationEvent`. -/
abbrev ListenerEvent := Nat × String × String × Bool

/-- One audit-log record (`PrivateDnsConfiguration::RecordEntry`). -/
structure RecordEntry where
  timestamp : Nat
  netId : Nat
  serverIdentity : ServerIdentity
  state : Validation
deriving DecidableEq

/-- Modelled from the spec: the audit ring buffer holds a fixed maximum number
of entries (the constant lives in the header, which is not under `src/`); the
exact value is not correctness relevant. -/
def kLogSize : Nat := 200

/-- `LockedRingBuffer::push`: drop the oldest entry when full, then append. -/
def ringPush (l : List RecordEntry) (e : RecordEntry) : List RecordEntry :=
  (if kLogSize ≤ l.length then l.tail else l) ++ [e]

/-- The manager state: mode map, tracker map, audit log, observer presence. -/
structure PrivateDnsConfiguration where
  mPrivateDnsModes : List (Nat × PrivateDnsMode)
  mPrivateDnsTransports : List (Nat × Tracker)
  mPrivateDnsLog : List RecordEntry
  mObserver : Bool
deriving DecidableEq

/-- `notifyValidationStateUpdate`: notify the process-local observer, when one
is installed, with the address string, the state and the network id. -/
def notifyValidationStateUpdate (cfg : PrivateDnsConfiguration) (sockaddr : String)
    (v : Validation) (netId : Nat) : List ObsNote :=
  if cfg.mObserver then [(sockaddr, v, netId)] else []

/-- `PrivateDnsConfiguration::updateServerState`: look up the record; when the
network or the identity is gone only notify `fail`, otherwise write the new
state, notify it, and push an audit record. -/
def updateServerState (cfg : PrivateDnsConfiguration) (identity : ServerIdentity)
    (state : Validation) (netId now : Nat) : PrivateDnsConfiguration × List ObsNote :=
  match alookup cfg.mPrivateDnsTransports netId with
  | none => (cfg, notifyValidationStateUpdate cfg identity.sockaddr Validation.fail netId)
  | some tracker =>
    match alookup tracker identity with
    | none => (cfg, notifyValidationStateUpdate cfg identity.sockaddr Validation.fail netId)
    | some _ =>
      let tracker' := aupd identity (fun r => { r with validationState := state }) tracker
      ({ cfg with
          mPrivateDnsTransports := aset netId tracker' cfg.mPrivateDnsTransports,
          mPrivateDnsLog := ringPush cfg.mPrivateDnsLog ⟨now, netId, identity, state⟩ },
       notifyValidationStateUpdate cfg identity.sockaddr state netId)

/-- A spawned validation worker: the captured snapshot of
`startValidation`'s arguments (server copy, netId, isRevalidation). -/
structure Worker where
  netId : Nat
  server : DnsTlsServer
  isRevalidation : Bool
deriving DecidableEq

/-- `PrivateDnsConfiguration::needsValidation`. -/
def needsValidation (server : DnsTlsServer) : Bool :=
  if server.active = false then false
  else if server.validationState = Validation.unknown_server then true
  else if server.validationState = Validation.fail then true
  else if server.validationState = Validation.success_but_expired then true
  else false

/-- Construction of a fresh `DnsTlsServer` in `set()`: parsed address, then
`name`, `certificate` and `mark` assigned.  Modelled from the spec: a newly
created record is inactive until `set()` recomputes the flag and starts in the
`unknown_server` state (the default members live in the missing header). -/
def mkServer (sockaddr name certificate : String) (mark : Nat) : DnsTlsServer :=
  ⟨sockaddr, name, certificate, mark, false, Validation.unknown_server⟩

/-- The parsing loop at the top of `set()`: builds the candidate tracker
`tmp`, failing with `-EINVAL` (`none`) as soon as one address does not
parse. -/
def buildTmp (parse : String → Option String) (name caCert : String) (mark : Nat) :
    List String → Tracker → Option Tracker
  | [], tmp => some tmp
  | s :: rest, tmp =>
    match parse s with
    | none => none
    | some addr =>
      let server := mkServer addr name caCert mark
      buildTmp parse name caCert mark rest (aset (ServerIdentity.of server) server tmp)

/-- The merge loop of `set()`: add candidate entries whose identity is not yet
tracked. -/
def mergeNew (tmp tracker : Tracker) : Tracker :=
  tmp.foldl (fun tr p => if (alookup tr p.1).isSome then tr else tr ++ [p]) tracker

/-- One iteration of the per-record loop of `set()`: recompute `active`,
reclassify a deactivated `success` record to `success_but_expired`, and when
`needsValidation` holds move the record to `in_process` and spawn a worker
capturing the current record. -/
def setStep (tmp : Tracker) (netId now : Nat)
    (acc : PrivateDnsConfiguration × List Worker × List ObsNote)
    (identity : ServerIdentity) : PrivateDnsConfiguration × List Worker × List ObsNote :=
  match alookup acc.1.mPrivateDnsTransports netId with
  | none => acc
  | some tracker =>
    match alookup tracker identity with
    | none => acc
    | some server =>
      let active := (alookup tmp identity).isSome
      let server1 := { server with active := active }
      let cfg1 := { acc.1 with
        mPrivateDnsTransports :=
          aset netId (aupd identity (fun _ => server1) tracker) acc.1.mPrivateDnsTransports }
      let step2 :=
        if server1.active = false ∧ server1.validationState = Validation.success then
          updateServerState cfg1 identity Validation.success_but_expired netId now
        else (cfg1, [])
      let cur := (alookup ((alookup step2.1.mPrivateDnsTransports netId).getD []) identity).getD server1
      if needsValidation cur then
        let step3 := updateServerState step2.1 identity Validation.in_process netId now
        let snap := { cur with validationState := Validation.in_process }
        (step3.1, acc.2.1 ++ [⟨netId, snap, false⟩], acc.2.2 ++ step2.2 ++ step3.2)
      else (step2.1, acc.2.1, acc.2.2 ++ step2.2)

/-- Result of `set()`: the return code (`0` or `-EINVAL = -22`), the new
state, the spawned workers and the observer notifications. -/
structure SetResult where
  ret : Int
  cfg : PrivateDnsConfiguration
  spawns : List Worker
  notes : List ObsNote
deriving DecidableEq

/-- The non-OFF tail of `set()`: store the mode, create the tracker if absent,
merge the new identities, then run the per-record loop. -/
def setMerged (cfg : PrivateDnsConfiguration) (netId now : Nat) (tmp : Tracker)
    (mode : PrivateDnsMode) : SetResult :=
  let cfgA := { cfg with mPrivateDnsModes := aset netId mode cfg.mPrivateDnsModes }
  let tracker0 := (alookup cfgA.mPrivateDnsTransports netId).getD []
  let merged := mergeNew tmp tracker0
  let cfgC := { cfgA with
    mPrivateDnsTransports := aset netId merged cfgA.mPrivateDnsTransports }
  let r := (akeys merged).foldl (setStep tmp netId now) (cfgC, [], [])
  ⟨0, r.1, r.2.1, r.2.2⟩

/-- `PrivateDnsConfiguration::set`. -/
def PrivateDnsConfiguration.set (parse : String → Option String)
    (cfg : PrivateDnsConfiguration) (netId mark : Nat) (servers : List String)
    (name caCert : String) (now : Nat) : SetResult :=
  match buildTmp parse name caCert mark servers [] with
  | none => ⟨-22, cfg, [], []⟩
  | some tmp =>
    if name ≠ "" then setMerged cfg netId now tmp PrivateDnsMode.strict
    else if tmp ≠ [] then setMerged cfg netId now tmp PrivateDnsMode.opportunistic
    else
      ⟨0, { cfg with
            mPrivateDnsModes := aset netId PrivateDnsMode.off cfg.mPrivateDnsModes,
            mPrivateDnsTransports := aerase netId cfg.mPrivateDnsTransports },
       [], []⟩

/-- Result of `getStatus()`: the mode and the active records with states. -/
structure PrivateDnsStatus where
  mode : PrivateDnsMode
  serversMap : List (DnsTlsServer × Validation)
deriving DecidableEq

/-- `PrivateDnsConfiguration::getStatus`. -/
def PrivateDnsConfiguration.getStatus (cfg : PrivateDnsConfiguration) (netId : Nat) :
    PrivateDnsStatus :=
  match alookup cfg.mPrivateDnsModes netId with
  | none => ⟨PrivateDnsMode.off, []⟩
  | some m =>
    match alookup cfg.mPrivateDnsTransports netId with
    | none => ⟨m, []⟩
    | some tracker =>
      ⟨m, (tracker.filter (fun p => p.2.active)).map (fun p => (p.2, p.2.validationState))⟩

/-- `PrivateDnsConfiguration::clear`. -/
def PrivateDnsConfiguration.clear (cfg : PrivateDnsConfiguration) (netId : Nat) :
    PrivateDnsConfiguration :=
  { cfg with
    mPrivateDnsModes := aerase netId cfg.mPrivateDnsModes,
    mPrivateDnsTransports := aerase netId cfg.mPrivateDnsTransports }

/-- Result of `requestValidation()`: the error (or `none` on success), the new
state, the spawned workers and the observer notifications. -/
structure ReqResult where
  err : Option String
  cfg : PrivateDnsConfiguration
  spawns : List Worker
  notes : List ObsNote
deriving DecidableEq

/-- `PrivateDnsConfiguration::requestValidation`. -/
def requestValidation (cfg : PrivateDnsConfiguration) (netId : Nat)
    (server : DnsTlsServer) (mark now : Nat) : ReqResult :=
  match alookup cfg.mPrivateDnsModes netId with
  | none => ⟨some ("NetId not found in mPrivateDnsModes"), cfg, [], []⟩
  | some m =>
    if m ≠ PrivateDnsMode.opportunistic then
      ⟨some ("Private DNS setting is not opportunistic mode"), cfg, [], []⟩
    else
      match alookup cfg.mPrivateDnsTransports netId with
      | none => ⟨some ("NetId not found in mPrivateDnsTransports"), cfg, [], []⟩
      | some tracker =>
        match alookup tracker (ServerIdentity.of server) with
        | none => ⟨some ("Server was removed"), cfg, [], []⟩
        | some target =>
          if target.active = false then ⟨some ("Server is not active"), cfg, [], []⟩
          else if target.validationState ≠ Validation.success then
            ⟨some ("Server validation state mismatched"), cfg, [], []⟩
          else if target.mark ≠ mark then
            ⟨some ("Socket mark mismatched"), cfg, [], []⟩
          else
            let upd := updateServerState cfg (ServerIdentity.of server)
              Validation.in_process netId now
            ⟨none, upd.1,
             [⟨netId, { target with validationState := Validation.in_process }, true⟩],
             upd.2⟩

/-- Result of `recordPrivateDnsValidation()`: the re-evaluation verdict, the
new state, the listener broadcast and the observer notifications. -/
structure RecordResult where
  reeval : Bool
  cfg : PrivateDnsConfiguration
  listenerEvents : List ListenerEvent
  notes : List ObsNote
deriving DecidableEq

/-- `PrivateDnsConfiguration::recordPrivateDnsValidation`. -/
def recordPrivateDnsValidation (cfg : PrivateDnsConfiguration) (server : DnsTlsServer)
    (netId : Nat) (success isRevalidation : Bool) (now : Nat) : RecordResult :=
  let identity := ServerIdentity.of server
  match alookup cfg.mPrivateDnsTransports netId with
  | none =>
    ⟨false, cfg, [], notifyValidationStateUpdate cfg identity.sockaddr Validation.fail netId⟩
  | some tracker =>
    match alookup cfg.mPrivateDnsModes netId with
    | none =>
      ⟨false, cfg, [], notifyValidationStateUpdate cfg identity.sockaddr Validation.fail netId⟩
    | some mode =>
      let reeval0 : Bool :=
        if success then false
        else if mode = PrivateDnsMode.off then false
        else if mode = PrivateDnsMode.opportunistic ∧ isRevalidation = false then false
        else true
      let chk : Bool × Bool :=
        match alookup tracker identity with
        | none => (false, false)
        | some stored =>
          if serverEq stored server = false then (false, false)
          else if stored.active = false then (false, false)
          else (success, reeval0)
      let ev : List ListenerEvent := [(netId, server.sockaddr, server.name, chk.1)]
      let upd :=
        if chk.1 then updateServerState cfg identity Validation.success netId now
        else
          updateServerState cfg identity
            (if chk.2 then Validation.in_process else Validation.fail) netId now
      ⟨chk.2, upd.1, ev, upd.2⟩

/-- Modelled from the spec: `validationStatusToString` (defined outside
`src/`) names the states as the spec's `ValidationState` enumeration does. -/
def validationStatusToString : Validation → String
  | Validation.unknown_server => "unknown_server"
  | Validation.in_process => "in_process"
  | Validation.success => "success"
  | Validation.success_but_expired => "success_but_expired"
  | Validation.fail => "fail"

/-- The per-entry line of `dump()`, translating
`fmt::format("\x7b\x7d - netId=\x7b\x7d PrivateDns=\x7b\x7b\x7b\x7d/\x7b\x7d\x7d\x7d state=\x7b\x7d", ...)`
with the timestamp renderer abstracted. -/
def fmtRecordEntry (tsToString : Nat → String) (e : RecordEntry) : String :=
  tsToString e.timestamp ++ " - netId=" ++ toString e.netId ++ " PrivateDns=\x7b" ++
    e.serverIdentity.sockaddr ++ "/" ++ e.serverIdentity.provider ++ "\x7d state=" ++
    validationStatusToString e.state

/-- `PrivateDnsConfiguration::dump`: the heading line, one line per audit
record (oldest first), then the blank line emitted by `dw.blankline()`. -/
def PrivateDnsConfiguration.dump (tsToString : Nat → String)
    (cfg : PrivateDnsConfiguration) : List String :=
  "PrivateDnsLog:" :: (cfg.mPrivateDnsLog.map (fmtRecordEntry tsToString) ++ [""])

/-! Lemmas about the association-list operations. -/

theorem alookup_aset_self {α β : Type} [DecidableEq α] (a : α) (b : β) (l : List (α × β)) :
    alookup (aset a b l) a = some b := by
  induction l with
  | nil => simp [aset, alookup]
  | cons p l ih =>
    by_cases h : a = p.1
    · subst h
      simp [aset, alookup]
    · simp [aset, alookup, h, ih]

theorem alookup_aset_ne {α β : Type} [DecidableEq α] (a a' : α) (b : β) (l : List (α × β))
    (h : a' ≠ a) : alookup (aset a b l) a' = alookup l a' := by
  induction l with
  | nil => simp [aset, alookup, h]
  | cons p l ih =>
    by_cases hp : a = p.1
    · subst hp
      simp [aset, alookup, h]
    · simp only [aset, if_neg hp, alookup]
      by_cases hq : a' = p.1
      · simp [hq]
      · simp [hq, ih]

theorem alookup_aupd_self {α β : Type} [DecidableEq α] (a : α) (f : β → β) (l : List (α × β)) :
    alookup (aupd a f l) a = (alookup l a).map f := by
  induction l with
  | nil => simp [aupd, alookup]
  | cons p l ih =>
    by_cases h : a = p.1
    · subst h
      simp [aupd, alookup]
    · simp [aupd, alookup, h, ih]

theorem alookup_aupd_ne {α β : Type} [DecidableEq α] (a a' : α) (f : β → β) (l : List (α × β))
    (h : a' ≠ a) : alookup (aupd a f l) a' = alookup l a' := by
  induction l with
  | nil => simp [aupd, alookup]
  | cons p l ih =>
    by_cases hp : a = p.1
    · subst hp
      simp [aupd, alookup, h]
    · simp only [aupd, if_neg hp, alookup]
      by_cases hq : a' = p.1
      · simp [hq]
      · simp [hq, ih]

theorem akeys_aupd {α β : Type} [DecidableEq α] (a : α) (f : β → β) (l : List (α × β)) :
    akeys (aupd a f l) = akeys l := by
  induction l with
  | nil => simp [aupd]
  | cons p l ih =>
    by_cases h : a = p.1
    · subst h
      simp [aupd, akeys]
    · simp only [aupd, if_neg h, akeys, List.map_cons, List.cons.injEq, true_and]
      exact ih

theorem alookup_aerase_self {α β : Type} [DecidableEq α] (a : α) (l : List (α × β)) :
    alookup (aerase a l) a = none := by
  induction l with
  | nil => simp [aerase, alookup]
  | cons p l ih =>
    by_cases h : a = p.1
    · subst h
      simpa [aerase] using ih
    · simp [aerase, alookup, h, ih]

theorem alookup_aerase_ne {α β : Type} [DecidableEq α] (a a' : α) (l : List (α × β))
    (h : a' ≠ a) : alookup (aerase a l) a' = alookup l a' := by
  induction l with
  | nil => simp [aerase, alookup]
  | cons p l ih =>
    by_cases hp : a = p.1
    · subst hp
      simp [aerase, alookup, h, ih]
    · simp only [aerase, if_neg hp, alookup]
      by_cases hq : a' = p.1
      · simp [hq]
      · simp [hq, ih]

theorem alookup_isSome_iff_mem {α β : Type} [DecidableEq α] (a : α) (l : List (α × β)) :
    (alookup l a).isSome ↔ a ∈ akeys l := by
  induction l with
  | nil => simp [alookup, akeys]
  | cons p l ih =>
    by_cases h : a = p.1
    · simp [alookup, akeys, h]
    · simp [alookup, akeys, h, ih]

theorem alookup_append_of_isSome {α β : Type} [DecidableEq α] (a : α) (l l2 : List (α × β))
    (h : (alookup l a).isSome) : alookup (l ++ l2) a = alookup l a := by
  induction l with
  | nil => simp [alookup] at h
  | cons p l ih =>
    by_cases hp : a = p.1
    · simp [alookup, hp]
    · simp only [alookup, if_neg hp] at h
      simp [alookup, hp, ih h]

theorem alookup_append_of_none {α β : Type} [DecidableEq α] (a : α) (l l2 : List (α × β))
    (h : alookup l a = none) : alookup (l ++ l2) a = alookup l2 a := by
  induction l with
  | nil => simp
  | cons p l ih =>
    by_cases hp : a = p.1
    · simp [alookup, hp] at h
    · simp only [alookup, if_neg hp] at h
      simp [alookup, hp, ih h]

theorem akeys_aset {α β : Type} [DecidableEq α] (a : α) (b : β) (l : List (α × β)) :
    akeys (aset a b l) = if a ∈ akeys l then akeys l else akeys l ++ [a] := by
  induction l with
  | nil => simp [aset, akeys]
  | cons p l ih =>
    by_cases h : a = p.1
    · subst h
      simp [aset, akeys]
    · simp only [aset, if_neg h, akeys, List.map_cons] at ih ⊢
      rw [ih]
      by_cases hm : a ∈ List.map Prod.fst l
      · simp [hm, h]
      · simp [hm, h]

theorem nodup_akeys_aset {α β : Type} [DecidableEq α] (a : α) (b : β) (l : List (α × β))
    (h : (akeys l).Nodup) : (akeys (aset a b l)).Nodup := by
  rw [akeys_aset]
  by_cases hm : a ∈ akeys l
  · simpa [hm] using h
  · simp only [hm, if_false, List.nodup_append, List.nodup_cons]
    refine ⟨h, by simp, ?_⟩
    intro x hx
    simp only [List.mem_singleton]
    intro hxa
    exact hm (hxa ▸ hx)

theorem aset_ne_nil {α β : Type} [DecidableEq α] (a : α) (b : β) (l : List (α × β)) :
    aset a b l ≠ [] := by
  cases l with
  | nil => simp [aset]
  | cons p l =>
    by_cases h : a = p.1
    · simp [aset, h]
    · simp [aset, h]

theorem mergeNew_cons (p : ServerIdentity × DnsTlsServer) (tmp tr : Tracker) :
    mergeNew (p :: tmp) tr
      = mergeNew tmp (if (alookup tr p.1).isSome then tr else tr ++ [p]) := rfl

theorem alookup_mergeNew_of_isSome (tmp : Tracker) (tr : Tracker) (i : ServerIdentity)
    (h : (alookup tr i).isSome) : alookup (mergeNew tmp tr) i = alookup tr i := by
  induction tmp generalizing tr with
  | nil => simp [mergeNew]
  | cons p tmp ih =>
    rw [mergeNew_cons]
    cases hp : (alookup tr p.1).isSome with
    | true => simpa [hp] using ih tr h
    | false =>
      simp only [hp, Bool.false_eq_true, if_false]
      rw [ih (tr ++ [p]) (by rw [alookup_append_of_isSome i tr [p] h]; exact h)]
      exact alookup_append_of_isSome i tr [p] h

theorem alookup_mergeNew_of_none (tmp : Tracker) (tr : Tracker) (i : ServerIdentity)
    (h : alookup tr i = none) : alookup (mergeNew tmp tr) i = alookup tmp i := by
  induction tmp generalizing tr with
  | nil => simp [mergeNew, alookup, h]
  | cons p tmp ih =>
    rw [mergeNew_cons]
    by_cases hip : i = p.1
    · have hns : (alookup tr p.1).isSome = false := by
        rw [← hip]
        simp [h]
      simp only [hns, Bool.false_eq_true, if_false]
      have hsome : alookup (tr ++ [p]) i = some p.2 := by
        rw [alookup_append_of_none i tr _ h]
        simp [alookup, hip]
      rw [alookup_mergeNew_of_isSome tmp _ i (by simp [hsome]), hsome]
      simp [alookup, hip]
    · cases hp : (alookup tr p.1).isSome with
      | true =>
        simp only [hp, if_true]
        rw [ih tr h]
        simp [alookup, hip]
      | false =>
        simp only [hp, Bool.false_eq_true, if_false]
        rw [ih (tr ++ [p]) (by rw [alookup_append_of_none i tr [p] h]; simp [alookup, hip])]
        simp [alookup, hip]

theorem nodup_akeys_mergeNew (tmp : Tracker) (tr : Tracker)
    (h : (akeys tr).Nodup) : (akeys (mergeNew tmp tr)).Nodup := by
  induction tmp generalizing tr with
  | nil => simpa [mergeNew] using h
  | cons p tmp ih =>
    rw [mergeNew_cons]
    cases hp : (alookup tr p.1).isSome with
    | true => simpa [hp] using ih tr h
    | false =>
      simp only [hp, Bool.false_eq_true, if_false]
      refine ih (tr ++ [p]) ?_
      have hmem : p.1 ∉ akeys tr := by
        rw [← alookup_isSome_iff_mem]
        simp [hp]
      simp only [akeys, List.map_append, List.map_cons, List.map_nil, List.nodup_append,
        List.nodup_cons, List.nodup_nil, List.Disjoint]
      refine ⟨h, by simp, ?_⟩
      intro x hx hxs
      simp only [List.mem_singleton] at hxs
      exact hmem (hxs ▸ hx)

/-- Well-keyed tracker: every record is stored under its own identity. -/
def TrackerWK (t : Tracker) : Prop :=
  ∀ i r, alookup t i = some r → ServerIdentity.of r = i

theorem trackerWK_nil : TrackerWK [] := by
  intro i r h
  simp [alookup] at h

theorem trackerWK_aset (t : Tracker) (a : ServerIdentity) (b : DnsTlsServer)
    (hwk : TrackerWK t) (hb : ServerIdentity.of b = a) : TrackerWK (aset a b t) := by
  intro i r h
  by_cases hi : i = a
  · subst hi
    rw [alookup_aset_self] at h
    cases h
    exact hb
  · rw [alookup_aset_ne a i b t hi] at h
    exact hwk i r h

theorem trackerWK_mergeNew (tmp tr : Tracker) (h1 : TrackerWK tr) (h2 : TrackerWK tmp) :
    TrackerWK (mergeNew tmp tr) := by
  intro i r h
  cases hc : alookup tr i with
  | some v =>
    rw [alookup_mergeNew_of_isSome tmp tr i (by simp [hc]), hc] at h
    cases h
    exact h1 i r hc
  | none =>
    rw [alookup_mergeNew_of_none tmp tr i hc] at h
    exact h2 i r h

theorem buildTmp_wk (parse : String → Option String) (name caCert : String) (mark : Nat)
    (servers : List String) (acc tmp : Tracker) (hacc : TrackerWK acc)
    (h : buildTmp parse name caCert mark servers acc = some tmp) : TrackerWK tmp := by
  induction servers generalizing acc with
  | nil =>
    simp only [buildTmp, Option.some.injEq] at h
    exact h ▸ hacc
  | cons s rest ih =>
    simp only [buildTmp] at h
    cases hp : parse s with
    | none => simp [hp] at h
    | some addr =>
      rw [hp] at h
      exact ih _ (trackerWK_aset _ _ _ hacc rfl) h

theorem buildTmp_nodup (parse : String → Option String) (name caCert : String) (mark : Nat)
    (servers : List String) (acc tmp : Tracker) (hacc : (akeys acc).Nodup)
    (h : buildTmp parse name caCert mark servers acc = some tmp) : (akeys tmp).Nodup := by
  induction servers generalizing acc with
  | nil =>
    simp only [buildTmp, Option.some.injEq] at h
    exact h ▸ hacc
  | cons s rest ih =>
    simp only [buildTmp] at h
    cases hp : parse s with
    | none => simp [hp] at h
    | some addr =>
      rw [hp] at h
      exact ih _ (nodup_akeys_aset _ _ _ hacc) h

theorem buildTmp_ne_nil (parse : String → Option String) (name caCert : String) (mark : Nat)
    (servers : List String) (acc tmp : Tracker) (hacc : acc ≠ [])
    (h : buildTmp parse name caCert mark servers acc = some tmp) : tmp ≠ [] := by
  induction servers generalizing acc with
  | nil =>
    simp only [buildTmp, Option.some.injEq] at h
    exact h ▸ hacc
  | cons s rest ih =>
    simp only [buildTmp] at h
    cases hp : parse s with
    | none => simp [hp] at h
    | some addr =>
      rw [hp] at h
      exact ih _ (aset_ne_nil _ _ _) h

theorem buildTmp_none_iff (parse : String → Option String) (name caCert : String) (mark : Nat)
    (servers : List String) (acc : Tracker) :
    buildTmp parse name caCert mark servers acc = none ↔ ∃ s ∈ servers, parse s = none := by
  induction servers generalizing acc with
  | nil => simp [buildTmp]
  | cons s rest ih =>
    simp only [buildTmp]
    cases hp : parse s with
    | none => simp [hp]
    | some addr => simp [hp, ih]

/-! Characterization of `updateServerState` and of the per-record loop of
`set()`. -/

theorem updateServerState_hit (cfg : PrivateDnsConfiguration) (identity : ServerIdentity)
    (state : Validation) (netId now : Nat) (t : Tracker) (r : DnsTlsServer)
    (htr : alookup cfg.mPrivateDnsTransports netId = some t)
    (hr : alookup t identity = some r) :
    (updateServerState cfg identity state netId now).1 =
      { cfg with
        mPrivateDnsTransports :=
          aset netId (aupd identity (fun x => { x with validationState := state }) t)
            cfg.mPrivateDnsTransports,
        mPrivateDnsLog := ringPush cfg.mPrivateDnsLog ⟨now, netId, identity, state⟩ } := by
  unfold updateServerState
  rw [htr]
  dsimp only
  rw [hr]

/-- The record as it stands after the `setActive` assignment and the
`success_but_expired` reclassification of one `set()` loop iteration. -/
def midRecord (tmp : Tracker) (i : ServerIdentity) (r : DnsTlsServer) : DnsTlsServer :=
  let r1 : DnsTlsServer := { r with active := (alookup tmp i).isSome }
  if r1.active = false ∧ r1.validationState = Validation.success then
    { r1 with validationState := Validation.success_but_expired }
  else r1

/-- The record at the end of one `set()` loop iteration. -/
def finalRecord (tmp : Tracker) (i : ServerIdentity) (r : DnsTlsServer) : DnsTlsServer :=
  if needsValidation (midRecord tmp i r) then
    { midRecord tmp i r with validationState := Validation.in_process }
  else midRecord tmp i r


theorem setStep_spec (tmp : Tracker) (netId now : Nat) (cfg : PrivateDnsConfiguration)
    (sp : List Worker) (ns : List ObsNote) (tr : Tracker) (i : ServerIdentity)
    (r : DnsTlsServer)
    (htr : alookup cfg.mPrivateDnsTransports netId = some tr)
    (hr : alookup tr i = some r) :
    ∃ tr',
      alookup (setStep tmp netId now (cfg, sp, ns) i).1.mPrivateDnsTransports netId = some tr' ∧
      (∀ n, n ≠ netId →
        alookup (setStep tmp netId now (cfg, sp, ns) i).1.mPrivateDnsTransports n
          = alookup cfg.mPrivateDnsTransports n) ∧
      (setStep tmp netId now (cfg, sp, ns) i).1.mPrivateDnsModes = cfg.mPrivateDnsModes ∧
      (setStep tmp netId now (cfg, sp, ns) i).1.mObserver = cfg.mObserver ∧
      akeys tr' = akeys tr ∧
      alookup tr' i = some (finalRecord tmp i r) ∧
      (∀ j, j ≠ i → alookup tr' j = alookup tr j) ∧
      (setStep tmp netId now (cfg, sp, ns) i).2.1
        = sp ++ (if needsValidation (midRecord tmp i r) then
            [⟨netId, finalRecord tmp i r, false⟩] else []) := by
  simp only [setStep, updateServerState, htr, hr]
  by_cases hA : (alookup tmp i).isSome = false ∧ r.validationState = Validation.success
  · have hnv : needsValidation
        { sockaddr := r.sockaddr, name := r.name, certificate := r.certificate, mark := r.mark,
          active := (alookup tmp i).isSome,
          validationState := Validation.success_but_expired } = false := by
      simp [needsValidation, hA.1]
    simp only [if_pos hA, alookup_aset_self, alookup_aupd_self, hr, Option.map_some',
      Option.getD_some, hnv, Bool.false_eq_true, if_false]
    refine ⟨aupd i (fun x => { x with validationState := Validation.success_but_expired })
      (aupd i (fun _ => { r with active := (alookup tmp i).isSome }) tr),
      ?_, ?_, ?_, ?_, ?_, ?_, ?_, ?_⟩
    · rfl
    · intro n hn
      rw [alookup_aset_ne netId n _ _ hn, alookup_aset_ne netId n _ _ hn]
    · trivial
    · trivial
    · simp [akeys_aupd]
    · have hnone : alookup tmp i = none := by simpa using hA.1
      simp [alookup_aupd_self, hr, finalRecord, midRecord, needsValidation, hnone, hA.2]
    · intro j hj
      rw [alookup_aupd_ne i j _ _ hj, alookup_aupd_ne i j _ _ hj]
    · have hnone : alookup tmp i = none := by simpa using hA.1
      simp [midRecord, needsValidation, hnone, hA.2]
  · simp only [if_neg hA, alookup_aset_self, alookup_aupd_self, hr, Option.map_some',
      Option.getD_some]
    have hA2 : ¬(alookup tmp i = none ∧ r.validationState = Validation.success) := by
      intro hc
      exact hA ⟨by simp [hc.1], hc.2⟩
    by_cases hB : needsValidation
        { sockaddr := r.sockaddr, name := r.name, certificate := r.certificate, mark := r.mark,
          active := (alookup tmp i).isSome, validationState := r.validationState } = true
    · simp only [if_pos hB, alookup_aset_self]
      refine ⟨aupd i (fun x => { x with validationState := Validation.in_process })
        (aupd i (fun _ => { r with active := (alookup tmp i).isSome }) tr),
        ?_, ?_, ?_, ?_, ?_, ?_, ?_, ?_⟩
      · rfl
      · intro n hn
        rw [alookup_aset_ne netId n _ _ hn, alookup_aset_ne netId n _ _ hn]
      · trivial
      · trivial
      · simp [akeys_aupd]
      · simp [alookup_aupd_self, hr, finalRecord, midRecord, hA2, hB]
      · intro j hj
        rw [alookup_aupd_ne i j _ _ hj, alookup_aupd_ne i j _ _ hj]
      · simp [midRecord, finalRecord, hA2, hB]
    · simp only [hB, Bool.false_eq_true, if_false, alookup_aset_self]
      refine ⟨aupd i (fun _ => { r with active := (alookup tmp i).isSome }) tr,
        ?_, ?_, ?_, ?_, ?_, ?_, ?_, ?_⟩
      · rfl
      · intro n hn
        rw [alookup_aset_ne netId n _ _ hn]
      · trivial
      · trivial
      · simp [akeys_aupd]
      · simp [alookup_aupd_self, hr, finalRecord, midRecord, hA2, hB]
      · intro j hj
        rw [alookup_aupd_ne i j _ _ hj]
      · simp [midRecord, finalRecord, hA2, hB]

theorem setStep_acc (tmp : Tracker) (netId now : Nat) (cfg : PrivateDnsConfiguration)
    (sp : List Worker) (ns : List ObsNote) (i : ServerIdentity) :
    setStep tmp netId now (cfg, sp, ns) i
      = ((setStep tmp netId now (cfg, [], []) i).1,
         sp ++ (setStep tmp netId now (cfg, [], []) i).2.1,
         ns ++ (setStep tmp netId now (cfg, [], []) i).2.2) := by
  cases h1 : alookup cfg.mPrivateDnsTransports netId with
  | none => simp [setStep, h1]
  | some tracker =>
    cases h2 : alookup tracker i with
    | none => simp [setStep, h1, h2]
    | some server =>
      simp only [setStep, h1, h2]
      split_ifs <;> simp

theorem foldl_setStep_eta (tmp : Tracker) (netId now : Nat)
    (x : PrivateDnsConfiguration × List Worker × List ObsNote) (L : List ServerIdentity) :
    L.foldl (setStep tmp netId now) x = L.foldl (setStep tmp netId now) (x.1, x.2.1, x.2.2) := rfl

theorem setLoop_acc (tmp : Tracker) (netId now : Nat) (L : List ServerIdentity)
    (cfg : PrivateDnsConfiguration) (sp : List Worker) (ns : List ObsNote) :
    L.foldl (setStep tmp netId now) (cfg, sp, ns)
      = ((L.foldl (setStep tmp netId now) (cfg, [], [])).1,
         sp ++ (L.foldl (setStep tmp netId now) (cfg, [], [])).2.1,
         ns ++ (L.foldl (setStep tmp netId now) (cfg, [], [])).2.2) := by
  induction L generalizing cfg sp ns with
  | nil => simp
  | cons i L ih =>
    simp only [List.foldl_cons]
    rw [setStep_acc tmp netId now cfg sp ns i]
    rw [ih]
    conv_rhs => rw [foldl_setStep_eta tmp netId now (setStep tmp netId now (cfg, [], []) i) L, ih]
    simp

theorem setLoop_spec (tmp : Tracker) (netId now : Nat) :
    ∀ (L : List ServerIdentity) (cfg : PrivateDnsConfiguration) (tr : Tracker),
      alookup cfg.mPrivateDnsTransports netId = some tr →
      (∀ i ∈ L, (alookup tr i).isSome) →
      L.Nodup →
      ∃ tr',
        alookup (L.foldl (setStep tmp netId now) (cfg, [], [])).1.mPrivateDnsTransports netId
          = some tr' ∧
        (∀ n, n ≠ netId →
          alookup (L.foldl (setStep tmp netId now) (cfg, [], [])).1.mPrivateDnsTransports n
            = alookup cfg.mPrivateDnsTransports n) ∧
        (L.foldl (setStep tmp netId now) (cfg, [], [])).1.mPrivateDnsModes
          = cfg.mPrivateDnsModes ∧
        (L.foldl (setStep tmp netId now) (cfg, [], [])).1.mObserver = cfg.mObserver ∧
        akeys tr' = akeys tr ∧
        (∀ j, j ∉ L → alookup tr' j = alookup tr j) ∧
        (∀ j ∈ L, alookup tr' j = (alookup tr j).map (finalRecord tmp j)) ∧
        (L.foldl (setStep tmp netId now) (cfg, [], [])).2.1
          = L.filterMap (fun j =>
              match alookup tr j with
              | none => none
              | some r => if needsValidation (midRecord tmp j r) then
                  some ⟨netId, finalRecord tmp j r, false⟩ else none) := by
  intro L
  induction L with
  | nil =>
    intro cfg tr htr hmem hnd
    exact ⟨tr, htr, fun n hn => rfl, rfl, rfl, rfl, fun j hj => rfl, by simp, rfl⟩
  | cons i L ih =>
    intro cfg tr htr hmem hnd
    have hii : (alookup tr i).isSome := hmem i (by simp)
    obtain ⟨r, hri⟩ := Option.isSome_iff_exists.mp hii
    obtain ⟨tr1, hS1, hS2, hS3, hS4, hS5, hS6, hS7, hS8⟩ :=
      setStep_spec tmp netId now cfg [] [] tr i r htr hri
    have hiL : i ∉ L := (List.nodup_cons.mp hnd).1
    have hndL : L.Nodup := (List.nodup_cons.mp hnd).2
    have hmem' : ∀ j ∈ L, (alookup tr1 j).isSome := by
      intro j hj
      rw [hS7 j (fun he => hiL (he ▸ hj))]
      exact hmem j (by simp [hj])
    obtain ⟨tr2, hT1, hT2, hT3, hT4, hT5, hT6, hT7, hT8⟩ :=
      ih (setStep tmp netId now (cfg, [], []) i).1 tr1 hS1 hmem' hndL
    have hfold : (i :: L).foldl (setStep tmp netId now) (cfg, [], [])
        = ((L.foldl (setStep tmp netId now) ((setStep tmp netId now (cfg, [], []) i).1, [], [])).1,
           (setStep tmp netId now (cfg, [], []) i).2.1
             ++ (L.foldl (setStep tmp netId now)
                  ((setStep tmp netId now (cfg, [], []) i).1, [], [])).2.1,
           (setStep tmp netId now (cfg, [], []) i).2.2
             ++ (L.foldl (setStep tmp netId now)
                  ((setStep tmp netId now (cfg, [], []) i).1, [], [])).2.2) := by
      rw [List.foldl_cons,
        foldl_setStep_eta tmp netId now (setStep tmp netId now (cfg, [], []) i) L,
        setLoop_acc]
    refine ⟨tr2, ?_, ?_, ?_, ?_, ?_, ?_, ?_, ?_⟩
    · rw [hfold]
      exact hT1
    · intro n hn
      rw [hfold]
      exact (hT2 n hn).trans (hS2 n hn)
    · rw [hfold]
      exact hT3.trans hS3
    · rw [hfold]
      exact hT4.trans hS4
    · exact hT5.trans hS5
    · intro j hj
      have hji : j ≠ i := fun he => hj (he ▸ List.mem_cons_self i L)
      have hjL : j ∉ L := fun hm => hj (List.mem_cons_of_mem i hm)
      rw [hT6 j hjL, hS7 j hji]
    · intro j hj
      rcases List.mem_cons.mp hj with he | hm
      · subst he
        rw [hT6 j hiL, hS6, hri]
        rfl
      · have hji : j ≠ i := fun he => hiL (he ▸ hm)
        rw [hT7 j hm, hS7 j hji]
    · rw [hfold]
      have hcong : L.filterMap (fun j =>
            match alookup tr1 j with
            | none => none
            | some r => if needsValidation (midRecord tmp j r) then
                some (⟨netId, finalRecord tmp j r, false⟩ : Worker) else none)
          = L.filterMap (fun j =>
              match alookup tr j with
              | none => none
              | some r => if needsValidation (midRecord tmp j r) then
                  some (⟨netId, finalRecord tmp j r, false⟩ : Worker) else none) := by
        refine List.filterMap_congr ?_
        intro j hj
        rw [hS7 j (fun he => hiL (he ▸ hj))]
      rw [hT8, hS8, hcong]
      by_cases hc : needsValidation (midRecord tmp i r) = true
      · simp [List.filterMap_cons, hri, hc]
      · simp [List.filterMap_cons, hri, hc]

theorem setMerged_spec (cfg : PrivateDnsConfiguration) (netId now : Nat) (tmp : Tracker)
    (mode : PrivateDnsMode)
    (hnd : (akeys ((alookup cfg.mPrivateDnsTransports netId).getD [])).Nodup) :
    (setMerged cfg netId now tmp mode).ret = 0 ∧
    (setMerged cfg netId now tmp mode).cfg.mPrivateDnsModes
      = aset netId mode cfg.mPrivateDnsModes ∧
    (setMerged cfg netId now tmp mode).cfg.mObserver = cfg.mObserver ∧
    (∀ n, n ≠ netId →
      alookup (setMerged cfg netId now tmp mode).cfg.mPrivateDnsTransports n
        = alookup cfg.mPrivateDnsTransports n) ∧
    ∃ tr',
      alookup (setMerged cfg netId now tmp mode).cfg.mPrivateDnsTransports netId = some tr' ∧
      akeys tr' = akeys (mergeNew tmp ((alookup cfg.mPrivateDnsTransports netId).getD [])) ∧
      (∀ j, alookup tr' j
        = (alookup (mergeNew tmp ((alookup cfg.mPrivateDnsTransports netId).getD [])) j).map
            (finalRecord tmp j)) ∧
      (setMerged cfg netId now tmp mode).spawns
        = (akeys (mergeNew tmp ((alookup cfg.mPrivateDnsTransports netId).getD []))).filterMap
            (fun j =>
              match alookup (mergeNew tmp ((alookup cfg.mPrivateDnsTransports netId).getD [])) j with
              | none => none
              | some r => if needsValidation (midRecord tmp j r) then
                  some ⟨netId, finalRecord tmp j r, false⟩ else none) := by
  have htrC : alookup
      ({ cfg with
          mPrivateDnsModes := aset netId mode cfg.mPrivateDnsModes,
          mPrivateDnsTransports :=
            aset netId (mergeNew tmp ((alookup cfg.mPrivateDnsTransports netId).getD []))
              cfg.mPrivateDnsTransports } : PrivateDnsConfiguration).mPrivateDnsTransports netId
      = some (mergeNew tmp ((alookup cfg.mPrivateDnsTransports netId).getD [])) :=
    alookup_aset_self _ _ _
  have hmem : ∀ i ∈ akeys (mergeNew tmp ((alookup cfg.mPrivateDnsTransports netId).getD [])),
      (alookup (mergeNew tmp ((alookup cfg.mPrivateDnsTransports netId).getD [])) i).isSome := by
    intro i hi
    exact (alookup_isSome_iff_mem i _).mpr hi
  have hndM : (akeys (mergeNew tmp ((alookup cfg.mPrivateDnsTransports netId).getD []))).Nodup :=
    nodup_akeys_mergeNew tmp _ hnd
  obtain ⟨tr', hT1, hT2, hT3, hT4, hT5, hT6, hT7, hT8⟩ :=
    setLoop_spec tmp netId now
      (akeys (mergeNew tmp ((alookup cfg.mPrivateDnsTransports netId).getD [])))
      ({ cfg with
          mPrivateDnsModes := aset netId mode cfg.mPrivateDnsModes,
          mPrivateDnsTransports :=
            aset netId (mergeNew tmp ((alookup cfg.mPrivateDnsTransports netId).getD []))
              cfg.mPrivateDnsTransports })
      (mergeNew tmp ((alookup cfg.mPrivateDnsTransports netId).getD []))
      htrC hmem hndM
  refine ⟨rfl, ?_, ?_, ?_, tr', ?_, ?_, ?_, ?_⟩
  · exact hT3
  · exact hT4
  · intro n hn
    refine (hT2 n hn).trans ?_
    exact alookup_aset_ne netId n _ _ hn
  · exact hT1
  · exact hT5
  · intro j
    by_cases hj : j ∈ akeys (mergeNew tmp ((alookup cfg.mPrivateDnsTransports netId).getD []))
    · exact hT7 j hj
    · have hn : alookup (mergeNew tmp ((alookup cfg.mPrivateDnsTransports netId).getD [])) j
          = none := by
        cases hc : alookup (mergeNew tmp ((alookup cfg.mPrivateDnsTransports netId).getD [])) j with
        | none => rfl
        | some v =>
          exact absurd ((alookup_isSome_iff_mem j _).mp (by simp [hc])) hj
      rw [hT6 j hj, hn]
      rfl
  · exact hT8

theorem set_spec (parse : String → Option String) (cfg : PrivateDnsConfiguration)
    (netId mark : Nat) (servers : List String) (name caCert : String) (now : Nat)
    (tmp : Tracker)
    (hb : buildTmp parse name caCert mark servers [] = some tmp)
    (hoff : ¬(name = "" ∧ tmp = []))
    (hnd : (akeys ((alookup cfg.mPrivateDnsTransports netId).getD [])).Nodup) :
    (PrivateDnsConfiguration.set parse cfg netId mark servers name caCert now).ret = 0 ∧
    (PrivateDnsConfiguration.set parse cfg netId mark servers name caCert now).cfg.mPrivateDnsModes
      = aset netId (if name = "" then PrivateDnsMode.opportunistic else PrivateDnsMode.strict)
          cfg.mPrivateDnsModes ∧
    (PrivateDnsConfiguration.set parse cfg netId mark servers name caCert now).cfg.mObserver
      = cfg.mObserver ∧
    (∀ n, n ≠ netId →
      alookup (PrivateDnsConfiguration.set parse cfg netId mark servers name caCert
          now).cfg.mPrivateDnsTransports n
        = alookup cfg.mPrivateDnsTransports n) ∧
    ∃ tr',
      alookup (PrivateDnsConfiguration.set parse cfg netId mark servers name caCert
          now).cfg.mPrivateDnsTransports netId = some tr' ∧
      akeys tr' = akeys (mergeNew tmp ((alookup cfg.mPrivateDnsTransports netId).getD [])) ∧
      (∀ j, alookup tr' j
        = (alookup (mergeNew tmp ((alookup cfg.mPrivateDnsTransports netId).getD [])) j).map
            (finalRecord tmp j)) ∧
      (PrivateDnsConfiguration.set parse cfg netId mark servers name caCert now).spawns
        = (akeys (mergeNew tmp ((alookup cfg.mPrivateDnsTransports netId).getD []))).filterMap
            (fun j =>
              match alookup (mergeNew tmp ((alookup cfg.mPrivateDnsTransports netId).getD [])) j with
              | none => none
              | some r => if needsValidation (midRecord tmp j r) then
                  some ⟨netId, finalRecord tmp j r, false⟩ else none) := by
  have heq : PrivateDnsConfiguration.set parse cfg netId mark servers name caCert now
      = setMerged cfg netId now tmp
          (if name = "" then PrivateDnsMode.opportunistic else PrivateDnsMode.strict) := by
    simp only [PrivateDnsConfiguration.set, hb]
    by_cases hname : name = ""
    · have htmp : tmp ≠ [] := fun h => hoff ⟨hname, h⟩
      simp [hname, htmp]
    · simp [hname]
  rw [heq]
  exact setMerged_spec cfg netId now tmp _ hnd

/-! Pointwise characterization of one loop iteration's record outcome. -/

theorem finalRecord_char (tmp : Tracker) (i : ServerIdentity) (r : DnsTlsServer) :
    finalRecord tmp i r =
      { r with
        active := (alookup tmp i).isSome,
        validationState :=
          if (alookup tmp i).isSome = false ∧ r.validationState = Validation.success then
            Validation.success_but_expired
          else if (alookup tmp i).isSome = true ∧ (r.validationState = Validation.unknown_server
              ∨ r.validationState = Validation.fail
              ∨ r.validationState = Validation.success_but_expired) then
            Validation.in_process
          else r.validationState } := by
  cases ha : (alookup tmp i).isSome <;> cases hv : r.validationState <;>
    simp [finalRecord, midRecord, needsValidation, ha, hv]

theorem spawnCond_char (tmp : Tracker) (i : ServerIdentity) (r : DnsTlsServer) :
    needsValidation (midRecord tmp i r) = true ↔
      ((alookup tmp i).isSome = true ∧ (r.validationState = Validation.unknown_server
        ∨ r.validationState = Validation.fail
        ∨ r.validationState = Validation.success_but_expired)) := by
  cases ha : (alookup tmp i).isSome <;> cases hv : r.validationState <;>
    simp [midRecord, needsValidation, ha, hv]

theorem updateServerState_modes (cfg : PrivateDnsConfiguration) (identity : ServerIdentity)
    (state : Validation) (netId now : Nat) :
    (updateServerState cfg identity state netId now).1.mPrivateDnsModes
      = cfg.mPrivateDnsModes := by
  unfold updateServerState
  cases h1 : alookup cfg.mPrivateDnsTransports netId with
  | none => rfl
  | some t =>
    cases h2 : alookup t identity with
    | none => simp [h2]
    | some r => simp [h2]

theorem setStep_modes (tmp : Tracker) (netId now : Nat)
    (acc : PrivateDnsConfiguration × List Worker × List ObsNote) (i : ServerIdentity) :
    (setStep tmp netId now acc i).1.mPrivateDnsModes = acc.1.mPrivateDnsModes := by
  unfold setStep
  cases h1 : alookup acc.1.mPrivateDnsTransports netId with
  | none => rfl
  | some tracker =>
    cases h2 : alookup tracker i with
    | none => simp [h2]
    | some server =>
      simp only [h2]
      split
      · split <;> simp [updateServerState_modes]
      · split <;> simp [updateServerState_modes]

theorem setLoop_modes (tmp : Tracker) (netId now : Nat) (L : List ServerIdentity)
    (acc : PrivateDnsConfiguration × List Worker × List ObsNote) :
    (L.foldl (setStep tmp netId now) acc).1.mPrivateDnsModes = acc.1.mPrivateDnsModes := by
  induction L generalizing acc with
  | nil => rfl
  | cons i L ih => rw [List.foldl_cons, ih, setStep_modes]

/-- Claim C4: `set()` determines the mode as STRICT when the hostname is
non-empty, else OPPORTUNISTIC when the parsed candidate set is non-empty, else
OFF; in the OFF case the tracker is discarded, nothing is spawned or notified,
the log is untouched, and `getStatus` reports OFF with no servers. -/
theorem C4_set_mode_determination (parse : String → Option String)
    (cfg : PrivateDnsConfiguration) (netId mark : Nat) (servers : List String)
    (name caCert : String) (now : Nat) (tmp : Tracker)
    (hb : buildTmp parse name caCert mark servers [] = some tmp) :
    (PrivateDnsConfiguration.set parse cfg netId mark servers name caCert now).ret = 0 ∧
    alookup (PrivateDnsConfiguration.set parse cfg netId mark servers name caCert
        now).cfg.mPrivateDnsModes netId
      = some (if name ≠ "" then PrivateDnsMode.strict
          else if tmp ≠ [] then PrivateDnsMode.opportunistic else PrivateDnsMode.off) ∧
    (name = "" → servers = [] →
      alookup (PrivateDnsConfiguration.set parse cfg netId mark servers name caCert
          now).cfg.mPrivateDnsTransports netId = none ∧
      (PrivateDnsConfiguration.set parse cfg netId mark servers name caCert now).spawns = [] ∧
      (PrivateDnsConfiguration.set parse cfg netId mark servers name caCert now).notes = [] ∧
      (PrivateDnsConfiguration.set parse cfg netId mark servers name caCert
        now).cfg.mPrivateDnsLog = cfg.mPrivateDnsLog ∧
      PrivateDnsConfiguration.getStatus
        (PrivateDnsConfiguration.set parse cfg netId mark servers name caCert now).cfg netId
        = ⟨PrivateDnsMode.off, []⟩) := by
  by_cases hname : name = ""
  · by_cases htmp : tmp = []
    · have hset : PrivateDnsConfiguration.set parse cfg netId mark servers name caCert now
          = ⟨0, { cfg with
              mPrivateDnsModes := aset netId PrivateDnsMode.off cfg.mPrivateDnsModes,
              mPrivateDnsTransports := aerase netId cfg.mPrivateDnsTransports }, [], []⟩ := by
        subst hname
        simp [PrivateDnsConfiguration.set, hb, htmp]
      rw [hset]
      refine ⟨rfl, ?_, ?_⟩
      · simp [alookup_aset_self, hname, htmp]
      · intro h1 h2
        refine ⟨alookup_aerase_self _ _, rfl, rfl, rfl, ?_⟩
        simp [PrivateDnsConfiguration.getStatus, alookup_aset_self, alookup_aerase_self]
    · have hset : PrivateDnsConfiguration.set parse cfg netId mark servers name caCert now
          = setMerged cfg netId now tmp PrivateDnsMode.opportunistic := by
        subst hname
        simp [PrivateDnsConfiguration.set, hb, htmp]
      rw [hset]
      refine ⟨rfl, ?_, ?_⟩
      · have hm : (setMerged cfg netId now tmp
            PrivateDnsMode.opportunistic).cfg.mPrivateDnsModes
            = aset netId PrivateDnsMode.opportunistic cfg.mPrivateDnsModes := by
          have := setLoop_modes tmp netId now
            (akeys (mergeNew tmp ((alookup cfg.mPrivateDnsTransports netId).getD [])))
            ({ cfg with
                mPrivateDnsModes := aset netId PrivateDnsMode.opportunistic cfg.mPrivateDnsModes,
                mPrivateDnsTransports :=
                  aset netId (mergeNew tmp ((alookup cfg.mPrivateDnsTransports netId).getD []))
                    cfg.mPrivateDnsTransports }, [], [])
          exact this
        rw [hm, alookup_aset_self]
        simp [hname, htmp]
      · intro h1 h2
        exact absurd (by simpa [h2, buildTmp] using hb.symm) htmp
  · have hset : PrivateDnsConfiguration.set parse cfg netId mark servers name caCert now
        = setMerged cfg netId now tmp PrivateDnsMode.strict := by
      simp [PrivateDnsConfiguration.set, hb, hname]
    rw [hset]
    refine ⟨rfl, ?_, ?_⟩
    · have hm : (setMerged cfg netId now tmp PrivateDnsMode.strict).cfg.mPrivateDnsModes
          = aset netId PrivateDnsMode.strict cfg.mPrivateDnsModes := by
        have := setLoop_modes tmp netId now
          (akeys (mergeNew tmp ((alookup cfg.mPrivateDnsTransports netId).getD [])))
          ({ cfg with
              mPrivateDnsModes := aset netId PrivateDnsMode.strict cfg.mPrivateDnsModes,
              mPrivateDnsTransports :=
                aset netId (mergeNew tmp ((alookup cfg.mPrivateDnsTransports netId).getD []))
                  cfg.mPrivateDnsTransports }, [], [])
        exact this
      rw [hm, alookup_aset_self]
      simp [hname]
    · intro h1 h2
      exact absurd h1 hname

/-- Claim C7: if any server address fails to parse, `set()` returns `-EINVAL`
and performs no mutation at all: the state is returned unchanged and no worker
is spawned, no matter how many earlier addresses parsed. -/
theorem C7_set_parse_failure (parse : String → Option String)
    (cfg : PrivateDnsConfiguration) (netId mark : Nat) (servers : List String)
    (name caCert : String) (now : Nat)
    (h : ∃ s ∈ servers, parse s = none) :
    PrivateDnsConfiguration.set parse cfg netId mark servers name caCert now
      = ⟨-22, cfg, [], []⟩ := by
  have hb : buildTmp parse name caCert mark servers [] = none :=
    (buildTmp_none_iff parse name caCert mark servers []).mpr h
  simp [PrivateDnsConfiguration.set, hb]

/-- Claim C5: within a successful `set()` call, every previously tracked
record that was active in state `success` and is absent from the new candidate
set is reclassified to exactly `success_but_expired` (deactivated, all other
fields kept); consequently no record is ever left inactive yet still in state
`success` after `set()` returns. -/
theorem C5_no_inactive_success (parse : String → Option String)
    (cfg : PrivateDnsConfiguration) (netId mark : Nat) (servers : List String)
    (name caCert : String) (now : Nat) (tmp : Tracker)
    (hb : buildTmp parse name caCert mark servers [] = some tmp)
    (hnd : (akeys ((alookup cfg.mPrivateDnsTransports netId).getD [])).Nodup)
    (hret : (PrivateDnsConfiguration.set parse cfg netId mark servers name caCert now).ret = 0) :
    ∀ tr', alookup (PrivateDnsConfiguration.set parse cfg netId mark servers name caCert
        now).cfg.mPrivateDnsTransports netId = some tr' →
      (∀ i rOld,
        alookup ((alookup cfg.mPrivateDnsTransports netId).getD []) i = some rOld →
        rOld.active = true → rOld.validationState = Validation.success →
        alookup tmp i = none →
        alookup tr' i = some { rOld with
          active := false,
          validationState := Validation.success_but_expired }) ∧
      (∀ i rec, alookup tr' i = some rec →
        ¬(rec.active = false ∧ rec.validationState = Validation.success)) := by
  intro tr' htr'
  by_cases hoff : name = "" ∧ tmp = []
  · have hset : PrivateDnsConfiguration.set parse cfg netId mark servers name caCert now
        = ⟨0, { cfg with
            mPrivateDnsModes := aset netId PrivateDnsMode.off cfg.mPrivateDnsModes,
            mPrivateDnsTransports := aerase netId cfg.mPrivateDnsTransports }, [], []⟩ := by
      obtain ⟨h1, h2⟩ := hoff
      subst h1
      simp [PrivateDnsConfiguration.set, hb, h2]
    rw [hset] at htr'
    simp only [alookup_aerase_self] at htr'
    exact absurd htr' (by simp)
  · obtain ⟨hr0, hm0, ho0, hother, tr'', hl, hk, hv, hs⟩ :=
      set_spec parse cfg netId mark servers name caCert now tmp hb hoff hnd
    rw [htr'] at hl
    cases hl
    constructor
    · intro i rOld hold hact hsucc htmpi
      have hmg : alookup (mergeNew tmp ((alookup cfg.mPrivateDnsTransports netId).getD [])) i
          = some rOld :=
        (alookup_mergeNew_of_isSome tmp _ i (by simp [hold])).trans hold
      rw [hv i, hmg, Option.map_some', finalRecord_char]
      simp [htmpi, hsucc]
    · intro i rec hrec
      have := hv i
      rw [hrec] at this
      cases hmg : alookup (mergeNew tmp ((alookup cfg.mPrivateDnsTransports netId).getD [])) i with
      | none => rw [hmg] at this; simp at this
      | some r0 =>
        rw [hmg] at this
        simp only [Option.map_some'] at this
        cases this
        rw [finalRecord_char]
        intro hcon
        obtain ⟨ha, hvv⟩ := hcon
        simp only at ha
        by_cases hr0v : r0.validationState = Validation.success
        · simp [ha, hr0v] at hvv
        · simp [ha, hr0v] at hvv

/-- Claim C9: for an identity already tracked before a non-OFF `set()`, the
stored record keeps its address, provider, certificate and mark (even when the
call supplies different values); only the `active` flag is recomputed and the
state adjusted per the reclassification and validation-needed rules. -/
theorem C9_set_preserves_existing_records (parse : String → Option String)
    (cfg : PrivateDnsConfiguration) (netId mark : Nat) (servers : List String)
    (name caCert : String) (now : Nat) (tmp : Tracker) (i : ServerIdentity) (rOld : DnsTlsServer)
    (hb : buildTmp parse name caCert mark servers [] = some tmp)
    (hoff : ¬(name = "" ∧ tmp = []))
    (hnd : (akeys ((alookup cfg.mPrivateDnsTransports netId).getD [])).Nodup)
    (hold : alookup ((alookup cfg.mPrivateDnsTransports netId).getD []) i = some rOld) :
    ∃ rNew,
      alookup ((alookup (PrivateDnsConfiguration.set parse cfg netId mark servers name caCert
          now).cfg.mPrivateDnsTransports netId).getD []) i = some rNew ∧
      rNew.sockaddr = rOld.sockaddr ∧
      rNew.name = rOld.name ∧
      rNew.certificate = rOld.certificate ∧
      rNew.mark = rOld.mark ∧
      rNew.active = (alookup tmp i).isSome ∧
      rNew.validationState =
        (if (alookup tmp i).isSome = false ∧ rOld.validationState = Validation.success then
          Validation.success_but_expired
        else if (alookup tmp i).isSome = true ∧ (rOld.validationState = Validation.unknown_server
            ∨ rOld.validationState = Validation.fail
            ∨ rOld.validationState = Validation.success_but_expired) then
          Validation.in_process
        else rOld.validationState) := by
  obtain ⟨hr0, hm0, ho0, hother, tr'', hl, hk, hv, hs⟩ :=
    set_spec parse cfg netId mark servers name caCert now tmp hb hoff hnd
  have hmg : alookup (mergeNew tmp ((alookup cfg.mPrivateDnsTransports netId).getD [])) i
      = some rOld :=
    (alookup_mergeNew_of_isSome tmp _ i (by simp [hold])).trans hold
  refine ⟨finalRecord tmp i rOld, ?_, ?_⟩
  · rw [hl]
    simp only [Option.getD_some]
    rw [hv i, hmg]
    rfl
  · rw [finalRecord_char]
    refine ⟨rfl, rfl, rfl, rfl, rfl, rfl⟩

/-- Claim C3: in a non-OFF `set()`, a worker is spawned exactly for the tracked
identities that are active (present in the candidate set) with prior state
`unknown_server`, `fail` or `success_but_expired`, and exactly those records
are moved to `in_process`; active records already `in_process` or `success`
are left untouched apart from the `active` flag, so a repeated identical
`set()` spawns nothing for them. -/
theorem C3_set_spawn_policy (parse : String → Option String)
    (cfg : PrivateDnsConfiguration) (netId mark : Nat) (servers : List String)
    (name caCert : String) (now : Nat) (tmp : Tracker)
    (hb : buildTmp parse name caCert mark servers [] = some tmp)
    (hoff : ¬(name = "" ∧ tmp = []))
    (hnd : (akeys ((alookup cfg.mPrivateDnsTransports netId).getD [])).Nodup)
    (hwk : TrackerWK ((alookup cfg.mPrivateDnsTransports netId).getD [])) :
    ∀ i rOld,
      alookup (mergeNew tmp ((alookup cfg.mPrivateDnsTransports netId).getD [])) i
        = some rOld →
      (((∃ w, w ∈ (PrivateDnsConfiguration.set parse cfg netId mark servers name caCert
            now).spawns ∧ ServerIdentity.of w.server = i) ↔
        ((alookup tmp i).isSome = true ∧ (rOld.validationState = Validation.unknown_server
          ∨ rOld.validationState = Validation.fail
          ∨ rOld.validationState = Validation.success_but_expired))) ∧
      ((alookup tmp i).isSome = true →
        (rOld.validationState = Validation.unknown_server
          ∨ rOld.validationState = Validation.fail
          ∨ rOld.validationState = Validation.success_but_expired) →
        alookup ((alookup (PrivateDnsConfiguration.set parse cfg netId mark servers name caCert
            now).cfg.mPrivateDnsTransports netId).getD []) i
          = some { rOld with active := true, validationState := Validation.in_process }) ∧
      ((alookup tmp i).isSome = true →
        (rOld.validationState = Validation.in_process
          ∨ rOld.validationState = Validation.success) →
        alookup ((alookup (PrivateDnsConfiguration.set parse cfg netId mark servers name caCert
            now).cfg.mPrivateDnsTransports netId).getD []) i
          = some { rOld with active := true })) := by
  obtain ⟨hr0, hm0, ho0, hother, tr'', hl, hk, hv, hs⟩ :=
    set_spec parse cfg netId mark servers name caCert now tmp hb hoff hnd
  have hwkM : TrackerWK (mergeNew tmp ((alookup cfg.mPrivateDnsTransports netId).getD [])) :=
    trackerWK_mergeNew tmp _ hwk (buildTmp_wk parse name caCert mark servers [] tmp trackerWK_nil hb)
  intro i rOld hmg
  refine ⟨⟨?_, ?_⟩, ?_, ?_⟩
  · rintro ⟨w, hw, hwid⟩
    rw [hs] at hw
    obtain ⟨j, hjmem, hjf⟩ := List.mem_filterMap.mp hw
    cases hmj : alookup (mergeNew tmp ((alookup cfg.mPrivateDnsTransports netId).getD [])) j with
    | none => rw [hmj] at hjf; simp at hjf
    | some rj =>
      rw [hmj] at hjf
      by_cases hc : needsValidation (midRecord tmp j rj) = true
      · simp only [hc, if_true] at hjf
        cases hjf
        have hji : j = i := by
          rw [← hwid]
          have : ServerIdentity.of (finalRecord tmp j rj) = ServerIdentity.of rj := by
            rw [finalRecord_char]
            rfl
          rw [this]
          exact (hwkM j rj hmj).symm
        subst hji
        rw [hmj] at hmg
        cases hmg
        exact (spawnCond_char tmp j rOld).mp hc
      · simp [hc] at hjf
  · intro hcond
    have hc : needsValidation (midRecord tmp i rOld) = true :=
      (spawnCond_char tmp i rOld).mpr hcond
    refine ⟨⟨netId, finalRecord tmp i rOld, false⟩, ?_, ?_⟩
    · rw [hs]
      refine List.mem_filterMap.mpr ⟨i, ?_, ?_⟩
      · exact (alookup_isSome_iff_mem i _).mp (by simp [hmg])
      · rw [hmg]
        simp [hc]
    · have : ServerIdentity.of (finalRecord tmp i rOld) = ServerIdentity.of rOld := by
        rw [finalRecord_char]
        rfl
      rw [this]
      exact hwkM i rOld hmg
  · intro htmpi hstates
    rw [hl]
    simp only [Option.getD_some]
    rw [hv i, hmg]
    simp only [Option.map_some']
    rw [finalRecord_char]
    simp [htmpi, hstates]
  · intro htmpi hstates
    rw [hl]
    simp only [Option.getD_some]
    rw [hv i, hmg]
    simp only [Option.map_some']
    rw [finalRecord_char]
    rcases hstates with h | h <;> simp [htmpi, h]

/-- Formalization of the claim's tentative verdict sentence: re-evaluate
unless `success` is true, or the mode is OFF, or the mode is OPPORTUNISTIC and
this was not an explicit revalidation. -/
def reevalVerdictSpec (mode : PrivateDnsMode) (success isRevalidation : Bool) : Bool :=
  !(success || decide (mode = PrivateDnsMode.off)
    || (decide (mode = PrivateDnsMode.opportunistic) && !isRevalidation))

/-- Formalization of the claim's staleness condition: the identity is absent
from the tracker, or the stored record differs from the snapshot, or the
stored record is inactive. -/
def staleSpec (tracker : Tracker) (server : DnsTlsServer) : Bool :=
  match alookup tracker (ServerIdentity.of server) with
  | none => true
  | some stored => !(serverEq stored server) || !stored.active

theorem reeval0_eq (mode : PrivateDnsMode) (success isRevalidation : Bool) :
    (if success then false
     else if mode = PrivateDnsMode.off then false
     else if mode = PrivateDnsMode.opportunistic ∧ isRevalidation = false then false
     else true) = reevalVerdictSpec mode success isRevalidation := by
  cases success <;> cases mode <;> cases isRevalidation <;> simp [reevalVerdictSpec]

/-- Claim C2: with the network's tracker and mode present,
`recordPrivateDnsValidation` returns the claimed verdict (re-evaluate unless
success, OFF, or OPPORTUNISTIC without revalidation; forced to false together
with `success` when the result is stale), and updates the stored record to
`success` on (forced) success, else `in_process` when re-evaluating, else
`fail`. -/
theorem C2_recordValidation_verdict (cfg : PrivateDnsConfiguration) (server : DnsTlsServer)
    (netId : Nat) (success isRevalidation : Bool) (now : Nat)
    (tracker : Tracker) (mode : PrivateDnsMode)
    (htr : alookup cfg.mPrivateDnsTransports netId = some tracker)
    (hm : alookup cfg.mPrivateDnsModes netId = some mode) :
    (recordPrivateDnsValidation cfg server netId success isRevalidation now).reeval
      = (!(staleSpec tracker server) && reevalVerdictSpec mode success isRevalidation) ∧
    (∀ stored, alookup tracker (ServerIdentity.of server) = some stored →
      alookup ((alookup (recordPrivateDnsValidation cfg server netId success isRevalidation
          now).cfg.mPrivateDnsTransports netId).getD []) (ServerIdentity.of server)
        = some { stored with validationState :=
            (if success && !(staleSpec tracker server) then Validation.success
             else if !(staleSpec tracker server)
                 && reevalVerdictSpec mode success isRevalidation then Validation.in_process
             else Validation.fail) }) := by
  simp only [recordPrivateDnsValidation, htr, hm]
  cases hsv : alookup tracker (ServerIdentity.of server) with
  | none =>
    constructor
    · simp [staleSpec, hsv]
    · intro stored hst
      simp at hst
  | some stored =>
    have hstale : staleSpec tracker server = (!(serverEq stored server) || !stored.active) := by
      simp [staleSpec, hsv]
    by_cases heq : serverEq stored server = false
    · constructor
      · simp [hsv, heq, hstale]
      · intro stored' hst
        cases hst
        simp only [hsv, heq, if_true, Bool.false_eq_true, if_false]
        rw [updateServerState_hit cfg (ServerIdentity.of server) Validation.fail netId now
          tracker stored htr hsv]
        simp [alookup_aset_self, alookup_aupd_self, hsv, hstale, heq]
    · have heqT : serverEq stored server = true := by
        cases hq : serverEq stored server
        · exact absurd hq heq
        · rfl
      by_cases hact : stored.active = false
      · constructor
        · simp [hsv, heqT, hact, hstale]
        · intro stored' hst
          cases hst
          simp only [hsv, heqT, hact, Bool.true_eq_false, if_false, if_true,
            Bool.false_eq_true]
          rw [updateServerState_hit cfg (ServerIdentity.of server) Validation.fail netId now
            tracker stored htr hsv]
          simp [alookup_aset_self, alookup_aupd_self, hsv, hstale, heqT, hact]
      · have hactT : stored.active = true := by
          cases hq : stored.active
          · exact absurd hq hact
          · rfl
        constructor
        · simp only [hsv, heqT, hactT, hstale]
          cases success <;> cases mode <;> cases isRevalidation <;> simp [reevalVerdictSpec]
        · intro stored' hst
          cases hst
          simp only [hsv, heqT, hactT, Bool.true_eq_false, if_false]
          cases success
          · simp only [Bool.false_eq_true, if_false]
            rw [updateServerState_hit cfg (ServerIdentity.of server) _ netId now
              tracker stored htr hsv]
            simp only [alookup_aset_self, Option.getD_some, alookup_aupd_self, hsv,
              Option.map_some', Option.some.injEq, DnsTlsServer.mk.injEq, true_and,
              hstale, heqT, hactT]
            cases mode <;> cases isRevalidation <;> simp [reevalVerdictSpec]
          · simp only [if_true]
            rw [updateServerState_hit cfg (ServerIdentity.of server) Validation.success netId now
              tracker stored htr hsv]
            simp [alookup_aset_self, alookup_aupd_self, hsv, hstale, heqT, hactT]

/-- Claim C10: when the network's tracker entry or mode entry no longer
exists, `recordPrivateDnsValidation` notifies only the process-local observer
with state `fail`, returns "do not re-evaluate", delivers no listener event,
changes no record and appends no audit entry (the whole state is returned
unchanged). -/
theorem C10_recordValidation_gone_network (cfg : PrivateDnsConfiguration)
    (server : DnsTlsServer) (netId : Nat) (success isRevalidation : Bool) (now : Nat)
    (h : alookup cfg.mPrivateDnsTransports netId = none
      ∨ alookup cfg.mPrivateDnsModes netId = none) :
    recordPrivateDnsValidation cfg server netId success isRevalidation now
      = ⟨false, cfg, [],
         if cfg.mObserver then
           [((ServerIdentity.of server).sockaddr, Validation.fail, netId)] else []⟩ := by
  rcases h with h | h
  · simp [recordPrivateDnsValidation, h, notifyValidationStateUpdate]
  · cases htr : alookup cfg.mPrivateDnsTransports netId with
    | none => simp [recordPrivateDnsValidation, htr, notifyValidationStateUpdate]
    | some t => simp [recordPrivateDnsValidation, htr, h, notifyValidationStateUpdate]

/-- Claim C6: `requestValidation` succeeds (and then moves the record to
`in_process` and spawns one worker with `isRevalidation = true`) exactly when
the mode is OPPORTUNISTIC, the identity is tracked, the record is active with
state `success`, and the supplied mark matches; every failing precondition
yields its own descriptive error and mutates nothing. -/
theorem C6_requestValidation_preconditions (cfg : PrivateDnsConfiguration) (netId : Nat)
    (server : DnsTlsServer) (mark now : Nat) :
    (((requestValidation cfg netId server mark now).err = none) ↔
      (alookup cfg.mPrivateDnsModes netId = some PrivateDnsMode.opportunistic ∧
       ∃ tracker target, alookup cfg.mPrivateDnsTransports netId = some tracker ∧
         alookup tracker (ServerIdentity.of server) = some target ∧
         target.active = true ∧ target.validationState = Validation.success ∧
         target.mark = mark)) ∧
    ((requestValidation cfg netId server mark now).err.isSome →
      requestValidation cfg netId server mark now
        = ⟨(requestValidation cfg netId server mark now).err, cfg, [], []⟩) ∧
    ((requestValidation cfg netId server mark now).err = none →
      ∀ tracker target, alookup cfg.mPrivateDnsTransports netId = some tracker →
        alookup tracker (ServerIdentity.of server) = some target →
        alookup ((alookup (requestValidation cfg netId server mark
            now).cfg.mPrivateDnsTransports netId).getD []) (ServerIdentity.of server)
          = some { target with validationState := Validation.in_process } ∧
        (requestValidation cfg netId server mark now).spawns
          = [⟨netId, { target with validationState := Validation.in_process }, true⟩]) ∧
    (alookup cfg.mPrivateDnsModes netId = none →
      (requestValidation cfg netId server mark now).err
        = some ("NetId not found in mPrivateDnsModes")) ∧
    (∀ m, alookup cfg.mPrivateDnsModes netId = some m → m ≠ PrivateDnsMode.opportunistic →
      (requestValidation cfg netId server mark now).err
        = some ("Private DNS setting is not opportunistic mode")) ∧
    (alookup cfg.mPrivateDnsModes netId = some PrivateDnsMode.opportunistic →
      alookup cfg.mPrivateDnsTransports netId = none →
      (requestValidation cfg netId server mark now).err
        = some ("NetId not found in mPrivateDnsTransports")) ∧
    (∀ tracker, alookup cfg.mPrivateDnsModes netId = some PrivateDnsMode.opportunistic →
      alookup cfg.mPrivateDnsTransports netId = some tracker →
      alookup tracker (ServerIdentity.of server) = none →
      (requestValidation cfg netId server mark now).err = some ("Server was removed")) ∧
    (∀ tracker target, alookup cfg.mPrivateDnsModes netId = some PrivateDnsMode.opportunistic →
      alookup cfg.mPrivateDnsTransports netId = some tracker →
      alookup tracker (ServerIdentity.of server) = some target →
      target.active = false →
      (requestValidation cfg netId server mark now).err = some ("Server is not active")) ∧
    (∀ tracker target, alookup cfg.mPrivateDnsModes netId = some PrivateDnsMode.opportunistic →
      alookup cfg.mPrivateDnsTransports netId = some tracker →
      alookup tracker (ServerIdentity.of server) = some target →
      target.active = true → target.validationState ≠ Validation.success →
      (requestValidation cfg netId server mark now).err
        = some ("Server validation state mismatched")) ∧
    (∀ tracker target, alookup cfg.mPrivateDnsModes netId = some PrivateDnsMode.opportunistic →
      alookup cfg.mPrivateDnsTransports netId = some tracker →
      alookup tracker (ServerIdentity.of server) = some target →
      target.active = true → target.validationState = Validation.success →
      target.mark ≠ mark →
      (requestValidation cfg netId server mark now).err
        = some ("Socket mark mismatched")) := by
  cases hm : alookup cfg.mPrivateDnsModes netId with
  | none =>
    have he : requestValidation cfg netId server mark now
        = ⟨some ("NetId not found in mPrivateDnsModes"), cfg, [], []⟩ := by
      simp [requestValidation, hm]
    rw [he]
    refine ⟨by simp, fun _ => rfl, by simp, fun _ => rfl, ?_, ?_, ?_, ?_, ?_, ?_⟩
    · intro m hmm
      cases hmm
    · intro h1
      cases h1
    · intro tracker h1
      cases h1
    · intro tracker target h1
      cases h1
    · intro tracker target h1
      cases h1
    · intro tracker target h1
      cases h1
  | some m =>
    by_cases hopp : m = PrivateDnsMode.opportunistic
    · subst hopp
      cases htr : alookup cfg.mPrivateDnsTransports netId with
      | none =>
        have he : requestValidation cfg netId server mark now
            = ⟨some ("NetId not found in mPrivateDnsTransports"), cfg, [], []⟩ := by
          simp [requestValidation, hm, htr]
        rw [he]
        refine ⟨by simp, fun _ => rfl, by simp, ?_, ?_, fun _ _ => rfl, ?_, ?_, ?_, ?_⟩
        · intro h1
          cases h1
        · intro m hmm hne
          cases hmm
          exact absurd rfl hne
        · intro tracker _ h1
          cases h1
        · intro tracker target _ h1
          cases h1
        · intro tracker target _ h1
          cases h1
        · intro tracker target _ h1
          cases h1
      | some tracker =>
        cases hsv : alookup tracker (ServerIdentity.of server) with
        | none =>
          have he : requestValidation cfg netId server mark now
              = ⟨some ("Server was removed"), cfg, [], []⟩ := by
            simp [requestValidation, hm, htr, hsv]
          rw [he]
          refine ⟨?_, fun _ => rfl, by simp, ?_, ?_, ?_, fun _ _ _ _ => rfl, ?_, ?_, ?_⟩
          · constructor
            · intro hcon
              simp at hcon
            · rintro ⟨h1, t1, t2, ht1, ht2, hrest⟩
              exfalso
              cases ht1
              rw [hsv] at ht2
              cases ht2
          · intro h1
            cases h1
          · intro m hmm hne
            cases hmm
            exact absurd rfl hne
          · intro h1 h2
            cases h2
          · intro t1 t2 _ ht1 ht2
            cases ht1
            rw [hsv] at ht2
            cases ht2
          · intro t1 t2 _ ht1 ht2 _
            cases ht1
            rw [hsv] at ht2
            cases ht2
          · intro t1 t2 _ ht1 ht2 _ _
            cases ht1
            rw [hsv] at ht2
            cases ht2
        | some target =>
          by_cases hact : target.active = false
          · have he : requestValidation cfg netId server mark now
                = ⟨some ("Server is not active"), cfg, [], []⟩ := by
              simp [requestValidation, hm, htr, hsv, hact]
            rw [he]
            refine ⟨?_, fun _ => rfl, by simp, ?_, ?_, ?_, ?_, fun _ _ _ _ _ _ => rfl, ?_, ?_⟩
            · constructor
              · intro hcon
                simp at hcon
              · rintro ⟨h1, t1, t2, ht1, ht2, hat, hrest⟩
                exfalso
                cases ht1
                rw [hsv] at ht2
                cases ht2
                rw [hact] at hat
                cases hat
            · intro h1
              cases h1
            · intro m hmm hne
              cases hmm
              exact absurd rfl hne
            · intro h1 h2
              cases h2
            · intro t1 _ ht1 ht2
              cases ht1
              rw [hsv] at ht2
              cases ht2
            · intro t1 t2 _ ht1 ht2 hat _
              cases ht1
              rw [hsv] at ht2
              cases ht2
              rw [hact] at hat
              cases hat
            · intro t1 t2 _ ht1 ht2 hat _ _
              cases ht1
              rw [hsv] at ht2
              cases ht2
              rw [hact] at hat
              cases hat
          · have hactT : target.active = true := by
              cases hq : target.active
              · exact absurd hq hact
              · rfl
            by_cases hvs : target.validationState = Validation.success
            · by_cases hmk : target.mark = mark
              · have he : requestValidation cfg netId server mark now
                    = ⟨none,
                       (updateServerState cfg (ServerIdentity.of server)
                         Validation.in_process netId now).1,
                       [⟨netId, { target with validationState := Validation.in_process }, true⟩],
                       (updateServerState cfg (ServerIdentity.of server)
                         Validation.in_process netId now).2⟩ := by
                  simp [requestValidation, hm, htr, hsv, hact, hvs, hmk]
                rw [he]
                refine ⟨?_, ?_, ?_, ?_, ?_, ?_, ?_, ?_, ?_, ?_⟩
                · simp only [true_iff]
                  exact ⟨trivial, tracker, target, rfl, hsv, hactT, hvs, hmk⟩
                · intro hcon
                  simp at hcon
                · intro _ t1 t2 ht1 ht2
                  cases ht1
                  rw [hsv] at ht2
                  cases ht2
                  constructor
                  · rw [updateServerState_hit cfg (ServerIdentity.of server)
                      Validation.in_process netId now tracker target htr hsv]
                    simp [alookup_aset_self, alookup_aupd_self, hsv]
                  · rfl
                · intro h1
                  cases h1
                · intro m hmm hne
                  cases hmm
                  exact absurd rfl hne
                · intro _ h2
                  cases h2
                · intro t1 _ ht1 ht2
                  cases ht1
                  rw [hsv] at ht2
                  cases ht2
                · intro t1 t2 _ ht1 ht2 hat
                  cases ht1
                  rw [hsv] at ht2
                  cases ht2
                  rw [hactT] at hat
                  cases hat
                · intro t1 t2 _ ht1 ht2 _ hne
                  cases ht1
                  rw [hsv] at ht2
                  cases ht2
                  exact absurd hvs hne
                · intro t1 t2 _ ht1 ht2 _ _ hne
                  cases ht1
                  rw [hsv] at ht2
                  cases ht2
                  exact absurd hmk hne
              · have he : requestValidation cfg netId server mark now
                    = ⟨some ("Socket mark mismatched"), cfg, [], []⟩ := by
                  simp [requestValidation, hm, htr, hsv, hact, hvs, hmk]
                rw [he]
                refine ⟨?_, fun _ => rfl, by simp, ?_, ?_, ?_, ?_, ?_, ?_,
                  fun _ _ _ _ _ _ _ _ => rfl⟩
                · constructor
                  · intro hcon
                    simp at hcon
                  · rintro ⟨h1, t1, t2, ht1, ht2, hat, hvv, hmm⟩
                    exfalso
                    cases ht1
                    rw [hsv] at ht2
                    cases ht2
                    exact hmk hmm
                · intro h1
                  cases h1
                · intro m hmm hne
                  cases hmm
                  exact absurd rfl hne
                · intro _ h2
                  cases h2
                · intro t1 _ ht1 ht2
                  cases ht1
                  rw [hsv] at ht2
                  cases ht2
                · intro t1 t2 _ ht1 ht2 hat
                  cases ht1
                  rw [hsv] at ht2
                  cases ht2
                  rw [hactT] at hat
                  cases hat
                · intro t1 t2 _ ht1 ht2 _ hne
                  cases ht1
                  rw [hsv] at ht2
                  cases ht2
                  exact absurd hvs hne
            · have he : requestValidation cfg netId server mark now
                  = ⟨some ("Server validation state mismatched"), cfg, [], []⟩ := by
                simp [requestValidation, hm, htr, hsv, hact, hvs]
              rw [he]
              refine ⟨?_, fun _ => rfl, by simp, ?_, ?_, ?_, ?_, ?_,
                fun _ _ _ _ _ _ _ => rfl, ?_⟩
              · constructor
                · intro hcon
                  simp at hcon
                · rintro ⟨h1, t1, t2, ht1, ht2, hat, hvv, hmm⟩
                  exfalso
                  cases ht1
                  rw [hsv] at ht2
                  cases ht2
                  exact hvs hvv
              · intro h1
                cases h1
              · intro m hmm hne
                cases hmm
                exact absurd rfl hne
              · intro _ h2
                cases h2
              · intro t1 _ ht1 ht2
                cases ht1
                rw [hsv] at ht2
                cases ht2
              · intro t1 t2 _ ht1 ht2 hat
                cases ht1
                rw [hsv] at ht2
                cases ht2
                rw [hactT] at hat
                cases hat
              · intro t1 t2 _ ht1 ht2 _ hvv hne
                cases ht1
                rw [hsv] at ht2
                cases ht2
                exact absurd hvv hvs
    · have he : requestValidation cfg netId server mark now
          = ⟨some ("Private DNS setting is not opportunistic mode"), cfg, [], []⟩ := by
        simp [requestValidation, hm, hopp]
      rw [he]
      refine ⟨?_, fun _ => rfl, by simp, ?_, fun _ _ _ => rfl, ?_, ?_, ?_, ?_, ?_⟩
      · constructor
        · intro hcon
          simp at hcon
        · rintro ⟨h1, hrest⟩
          exfalso
          cases h1
          exact hopp rfl
      · intro h1
        cases h1
      · intro h1
        cases h1
        exact absurd rfl hopp
      · intro t1 h1
        cases h1
        exact absurd rfl hopp
      · intro t1 t2 h1
        cases h1
        exact absurd rfl hopp
      · intro t1 t2 h1
        cases h1
        exact absurd rfl hopp
      · intro t1 t2 h1
        cases h1
        exact absurd rfl hopp

/-- The per-entry dump line exactly as the claim words it:
`<timestamp> - network=<id> PrivateDns=\x7b<address>/<provider>\x7d state=<state>`. -/
def claimDumpLine (tsToString : Nat → String) (e : RecordEntry) : String :=
  tsToString e.timestamp ++ " - network=" ++ toString e.netId ++ " PrivateDns=\x7b" ++
    e.serverIdentity.sockaddr ++ "/" ++ e.serverIdentity.provider ++ "\x7d state=" ++
    validationStatusToString e.state

/-- The amended per-entry dump line: the code prints `netId=`, not
`network=`. -/
def amendedDumpLine (tsToString : Nat → String) (e : RecordEntry) : String :=
  tsToString e.timestamp ++ " - netId=" ++ toString e.netId ++ " PrivateDns=\x7b" ++
    e.serverIdentity.sockaddr ++ "/" ++ e.serverIdentity.provider ++ "\x7d state=" ++
    validationStatusToString e.state

theorem amendedDumpLine_eq_fmt (tsToString : Nat → String) (e : RecordEntry) :
    amendedDumpLine tsToString e = fmtRecordEntry tsToString e := rfl

/-- A decimal timestamp renderer used for the concrete counterexample. -/
def tsId : Nat → String := fun n => toString n

/-- A concrete one-entry audit log for the dump counterexample. -/
def entryC8 : RecordEntry := ⟨0, 1, ⟨"9.9.9.9:853", "example.com"⟩, Validation.success⟩

/-- A concrete manager state holding only `entryC8` in its log. -/
def cfgC8 : PrivateDnsConfiguration := ⟨[], [], [entryC8], false⟩

/-- Claim C8 as stated is false: `dump()` does not emit exactly one line per
audit entry in the claimed `network=` format — the entry line uses `netId=`
and the output is framed by a heading line and a blank line. -/
theorem C8_dump_format_counterexample :
    PrivateDnsConfiguration.dump tsId cfgC8
      ≠ cfgC8.mPrivateDnsLog.map (claimDumpLine tsId) := by
  decide

/-- Claim C8 (amended): `dump()` emits the heading line `PrivateDnsLog:`,
then one line per audit entry ordered oldest to newest, each formatted exactly
`<timestamp> - netId=<id> PrivateDns=\x7b<address>/<provider>\x7d state=<state>`,
then one blank line. -/
theorem C8_dump_format_amended (tsToString : Nat → String) (cfg : PrivateDnsConfiguration) :
    (PrivateDnsConfiguration.dump tsToString cfg).length
      = cfg.mPrivateDnsLog.length + 2 ∧
    (PrivateDnsConfiguration.dump tsToString cfg).head? = some "PrivateDnsLog:" ∧
    (PrivateDnsConfiguration.dump tsToString cfg).getLast? = some "" ∧
    (∀ k, k < cfg.mPrivateDnsLog.length →
      (PrivateDnsConfiguration.dump tsToString cfg)[k + 1]?
        = (cfg.mPrivateDnsLog[k]?).map (amendedDumpLine tsToString)) := by
  refine ⟨?_, rfl, ?_, ?_⟩
  · simp [PrivateDnsConfiguration.dump]
  · show (("PrivateDnsLog:" :: cfg.mPrivateDnsLog.map (fmtRecordEntry tsToString))
      ++ [""]).getLast? = some ""
    rw [List.getLast?_concat]
  · intro k hk
    unfold PrivateDnsConfiguration.dump
    rw [List.getElem?_cons_succ, List.getElem?_append]
    rw [if_pos (by simpa using hk)]
    simp only [List.getElem?_map]
    cases cfg.mPrivateDnsLog[k]? with
    | none => rfl
    | some e => rfl

/-! A transition system over the manager state plus the multiset of running
validation workers, for the concurrency claims.  A worker is spawned by
`set()`/`requestValidation()` (`startValidation` detaches a thread) and
disappears when its `recordPrivateDnsValidation` report returns "do not
re-evaluate" (it may also stop earlier when its backoff schedule is
exhausted). -/

structure FullState where
  cfg : PrivateDnsConfiguration
  workers : List Worker
deriving DecidableEq

/-- The initial state: empty maps, no workers, no observer. -/
def initState : FullState := ⟨⟨[], [], [], false⟩, []⟩

/-- Labels of the transition system: the public operations, a worker's
report step, and a worker stopping after backoff exhaustion. -/
inductive Lbl where
  | setCfg (netId mark : Nat) (servers : List String) (name caCert : String) (now : Nat)
  | reqVal (netId : Nat) (server : DnsTlsServer) (mark now : Nat)
  | clearNet (netId : Nat)
  | report (idx : Nat) (success : Bool) (now : Nat)
  | stop (idx : Nat)
  | setObs (b : Bool)

/-- One transition. -/
def applyLbl (parse : String → Option String) (l : Lbl) (fs : FullState) : FullState :=
  match l with
  | Lbl.setCfg netId mark servers name caCert now =>
    let r := PrivateDnsConfiguration.set parse fs.cfg netId mark servers name caCert now
    ⟨r.cfg, fs.workers ++ r.spawns⟩
  | Lbl.reqVal netId server mark now =>
    let r := requestValidation fs.cfg netId server mark now
    ⟨r.cfg, fs.workers ++ r.spawns⟩
  | Lbl.clearNet netId => ⟨PrivateDnsConfiguration.clear fs.cfg netId, fs.workers⟩
  | Lbl.report idx success now =>
    match fs.workers[idx]? with
    | none => fs
    | some w =>
      let r := recordPrivateDnsValidation fs.cfg w.server w.netId success w.isRevalidation now
      ⟨r.cfg, if r.reeval then fs.workers else fs.workers.eraseIdx idx⟩
  | Lbl.stop idx => ⟨fs.cfg, fs.workers.eraseIdx idx⟩
  | Lbl.setObs b => ⟨{ fs.cfg with mObserver := b }, fs.workers⟩

/-- Executing a trace of operations from the initial state. -/
def runTrace (parse : String → Option String) (tr : List Lbl) : FullState :=
  tr.foldl (fun s l => applyLbl parse l s) initState

/-- Number of currently running workers for a (network, identity) pair. -/
def workerCount (fs : FullState) (netId : Nat) (identity : ServerIdentity) : Nat :=
  fs.workers.countP (fun w => decide (w.netId = netId ∧ ServerIdentity.of w.server = identity))

/-- Labels that never discard a network's tracker: everything except
`clear()` and a `set()` that results in OFF mode. -/
def discardFree : Lbl → Bool
  | Lbl.clearNet _ => false
  | Lbl.setCfg _ _ servers name _ _ => decide (¬(name = "" ∧ servers = []))
  | _ => true

/-- Every tracker in the map has duplicate-free, well-placed keys. -/
def TransportsWF (cfg : PrivateDnsConfiguration) : Prop :=
  ∀ n t, alookup cfg.mPrivateDnsTransports n = some t → (akeys t).Nodup ∧ TrackerWK t

/-- A running worker's record is still tracked and `in_process`. -/
def WorkerOk (cfg : PrivateDnsConfiguration) (w : Worker) : Prop :=
  ∃ t r, alookup cfg.mPrivateDnsTransports w.netId = some t ∧
    alookup t (ServerIdentity.of w.server) = some r ∧
    r.validationState = Validation.in_process

/-- The inductive invariant for the discard-free system. -/
def SysInv (fs : FullState) : Prop :=
  TransportsWF fs.cfg ∧
  (∀ n i, workerCount fs n i ≤ 1) ∧
  (∀ w ∈ fs.workers, WorkerOk fs.cfg w)

theorem inv_init : SysInv initState := by
  refine ⟨?_, ?_, ?_⟩
  · intro n t h
    simp [initState, alookup] at h
  · intro n i
    simp [initState, workerCount]
  · intro w hw
    simp [initState] at hw

theorem buildTmp_nonempty (parse : String → Option String) (name caCert : String) (mark : Nat)
    (servers : List String) (tmp : Tracker) (hs : servers ≠ [])
    (hb : buildTmp parse name caCert mark servers [] = some tmp) : tmp ≠ [] := by
  cases servers with
  | nil => exact absurd rfl hs
  | cons s rest =>
    simp only [buildTmp] at hb
    cases hp : parse s with
    | none => rw [hp] at hb; cases hb
    | some addr =>
      rw [hp] at hb
      exact buildTmp_ne_nil parse name caCert mark rest _ tmp (aset_ne_nil _ _ _) hb

theorem two_le_countP_of_eraseIdx {α : Type} (l : List α) (idx : Nat) (w : α) (p : α → Bool)
    (hw : l[idx]? = some w) (hpw : p w = true) (w' : α) (hw' : w' ∈ l.eraseIdx idx)
    (hpw' : p w' = true) : 2 ≤ l.countP p := by
  induction l generalizing idx with
  | nil => cases hw
  | cons a t ih =>
    cases idx with
    | zero =>
      simp only [List.getElem?_cons_zero, Option.some.injEq] at hw
      subst hw
      simp only [List.eraseIdx_cons_zero] at hw'
      have h1 : 0 < t.countP p := List.countP_pos_iff.mpr ⟨w', hw', hpw'⟩
      rw [List.countP_cons, if_pos hpw]
      omega
    | succ n =>
      simp only [List.getElem?_cons_succ] at hw
      simp only [List.eraseIdx_cons_succ, List.mem_cons] at hw'
      rcases hw' with he | hm
      · subst he
        have hwmem : w ∈ t := by
          obtain ⟨hlt, hget⟩ := List.getElem?_eq_some.mp hw
          exact hget ▸ List.getElem_mem hlt
        have h1 : 0 < t.countP p := List.countP_pos_iff.mpr ⟨w, hwmem, hpw⟩
        rw [List.countP_cons, if_pos hpw']
        omega
      · have h2 := ih n hw hm
        rw [List.countP_cons]
        split <;> omega

theorem recordValidation_gone (cfg : PrivateDnsConfiguration) (server : DnsTlsServer)
    (netId : Nat) (success isRevalidation : Bool) (now : Nat)
    (h : alookup cfg.mPrivateDnsTransports netId = none
      ∨ alookup cfg.mPrivateDnsModes netId = none) :
    (recordPrivateDnsValidation cfg server netId success isRevalidation now).cfg = cfg ∧
    (recordPrivateDnsValidation cfg server netId success isRevalidation now).reeval = false := by
  rcases h with h | h
  · simp [recordPrivateDnsValidation, h]
  · cases htr : alookup cfg.mPrivateDnsTransports netId with
    | none => simp [recordPrivateDnsValidation, htr]
    | some t => simp [recordPrivateDnsValidation, htr, h]

theorem recordValidation_spec (cfg : PrivateDnsConfiguration) (server : DnsTlsServer)
    (netId : Nat) (success isRevalidation : Bool) (now : Nat)
    (tracker : Tracker) (mode : PrivateDnsMode) (stored : DnsTlsServer)
    (htr : alookup cfg.mPrivateDnsTransports netId = some tracker)
    (hm : alookup cfg.mPrivateDnsModes netId = some mode)
    (hsv : alookup tracker (ServerIdentity.of server) = some stored) :
    ∃ st, (recordPrivateDnsValidation cfg server netId success isRevalidation now).cfg
        = { cfg with
            mPrivateDnsTransports :=
              aset netId
                (aupd (ServerIdentity.of server) (fun x => { x with validationState := st })
                  tracker) cfg.mPrivateDnsTransports,
            mPrivateDnsLog :=
              ringPush cfg.mPrivateDnsLog ⟨now, netId, ServerIdentity.of server, st⟩ } ∧
      ((recordPrivateDnsValidation cfg server netId success isRevalidation now).reeval = true →
        st = Validation.in_process) := by
  simp only [recordPrivateDnsValidation, htr, hm, hsv]
  by_cases heq : serverEq stored server = false
  · refine ⟨Validation.fail, ?_, ?_⟩
    · simp only [heq, if_true, Bool.false_eq_true, if_false]
      rw [updateServerState_hit cfg (ServerIdentity.of server) Validation.fail netId now
        tracker stored htr hsv]
    · simp [heq]
  · have heqT : serverEq stored server = true := by
      cases hq : serverEq stored server
      · exact absurd hq heq
      · rfl
    by_cases hact : stored.active = false
    · refine ⟨Validation.fail, ?_, ?_⟩
      · simp only [heqT, hact, Bool.true_eq_false, if_false, if_true, Bool.false_eq_true]
        rw [updateServerState_hit cfg (ServerIdentity.of server) Validation.fail netId now
          tracker stored htr hsv]
      · simp [heqT, hact]
    · have hactT : stored.active = true := by
        cases hq : stored.active
        · exact absurd hq hact
        · rfl
      cases success with
      | true =>
        refine ⟨Validation.success, ?_, ?_⟩
        · simp only [heqT, hactT, Bool.true_eq_false, if_false, if_true]
          rw [updateServerState_hit cfg (ServerIdentity.of server) Validation.success netId now
            tracker stored htr hsv]
        · simp [heqT, hactT]
      | false =>
        by_cases hre : (if mode = PrivateDnsMode.off then false
            else if mode = PrivateDnsMode.opportunistic ∧ isRevalidation = false then false
            else true) = true
        · refine ⟨Validation.in_process, ?_, ?_⟩
          · simp only [heqT, hactT, Bool.true_eq_false, if_false, hre, if_true,
              Bool.false_eq_true]
            rw [updateServerState_hit cfg (ServerIdentity.of server) Validation.in_process
              netId now tracker stored htr hsv]
          · intro _
            rfl
        · rw [Bool.not_eq_true] at hre
          refine ⟨Validation.fail, ?_, ?_⟩
          · simp only [heqT, hactT, Bool.true_eq_false, if_false]
            simp only [hre, Bool.false_eq_true, if_false]
            rw [updateServerState_hit cfg (ServerIdentity.of server) Validation.fail netId now
              tracker stored htr hsv]
          · intro hcontra
            simp only [heqT, hactT, Bool.true_eq_false, if_false] at hcontra
            rw [hre] at hcontra
            cases hcontra

theorem finalRecord_of (tmp : Tracker) (i : ServerIdentity) (r : DnsTlsServer) :
    ServerIdentity.of (finalRecord tmp i r) = ServerIdentity.of r := by
  rw [finalRecord_char]
  rfl

theorem finalRecord_state_of_cond (tmp : Tracker) (i : ServerIdentity) (r : DnsTlsServer)
    (hc : needsValidation (midRecord tmp i r) = true) :
    (finalRecord tmp i r).validationState = Validation.in_process := by
  simp [finalRecord, hc]

theorem finalRecord_state_in_process (tmp : Tracker) (i : ServerIdentity) (r : DnsTlsServer)
    (h : r.validationState = Validation.in_process) :
    (finalRecord tmp i r).validationState = Validation.in_process := by
  rw [finalRecord_char]
  simp [h]

theorem countP_le_one_filterMap_key {α β : Type} (L : List α) (f : α → Option β)
    (p : β → Bool) (key : β → α) (hnd : L.Nodup)
    (hkey : ∀ a b, f a = some b → key b = a)
    (i : α) (hp : ∀ b, p b = true → key b = i) :
    (L.filterMap f).countP p ≤ 1 := by
  induction L with
  | nil => simp
  | cons a L ih =>
    have hndL : L.Nodup := (List.nodup_cons.mp hnd).2
    have hna : a ∉ L := (List.nodup_cons.mp hnd).1
    rw [List.filterMap_cons]
    cases hfa : f a with
    | none => exact ih hndL
    | some b =>
      rw [List.countP_cons]
      by_cases hpb : p b = true
      · have hai : a = i := by
          rw [← hkey a b hfa]
          exact hp b hpb
        have hz : (L.filterMap f).countP p = 0 := by
          rw [List.countP_eq_zero]
          intro b' hb' hpb'
          obtain ⟨a', ha'mem, hfa'⟩ := List.mem_filterMap.mp hb'
          have ha' : a' = i := by
            rw [← hkey a' b' hfa']
            exact hp b' hpb'
          exact hna ((ha'.trans hai.symm) ▸ ha'mem)
        rw [hz, if_pos hpb]
      · rw [if_neg hpb]
        have := ih hndL
        omega

theorem requestValidation_cases (cfg : PrivateDnsConfiguration) (netId : Nat)
    (server : DnsTlsServer) (mark now : Nat) :
    ((requestValidation cfg netId server mark now).cfg = cfg ∧
      (requestValidation cfg netId server mark now).spawns = []) ∨
    ∃ tracker target,
      alookup cfg.mPrivateDnsTransports netId = some tracker ∧
      alookup tracker (ServerIdentity.of server) = some target ∧
      target.validationState = Validation.success ∧
      requestValidation cfg netId server mark now
        = ⟨none,
           (updateServerState cfg (ServerIdentity.of server) Validation.in_process netId now).1,
           [⟨netId, { target with validationState := Validation.in_process }, true⟩],
           (updateServerState cfg (ServerIdentity.of server) Validation.in_process netId now).2⟩ := by
  cases hm : alookup cfg.mPrivateDnsModes netId with
  | none => exact Or.inl (by simp [requestValidation, hm])
  | some m =>
    by_cases hopp : m = PrivateDnsMode.opportunistic
    · subst hopp
      cases htr : alookup cfg.mPrivateDnsTransports netId with
      | none => exact Or.inl (by simp [requestValidation, hm, htr])
      | some tracker =>
        cases hsv : alookup tracker (ServerIdentity.of server) with
        | none => exact Or.inl (by simp [requestValidation, hm, htr, hsv])
        | some target =>
          by_cases hact : target.active = false
          · exact Or.inl (by simp [requestValidation, hm, htr, hsv, hact])
          · by_cases hvs : target.validationState = Validation.success
            · by_cases hmk : target.mark = mark
              · exact Or.inr ⟨tracker, target, rfl, hsv, hvs,
                  by simp [requestValidation, hm, htr, hsv, hact, hvs, hmk]⟩
              · exact Or.inl (by simp [requestValidation, hm, htr, hsv, hact, hvs, hmk])
            · exact Or.inl (by simp [requestValidation, hm, htr, hsv, hact, hvs])
    · exact Or.inl (by simp [requestValidation, hm, hopp])

theorem inv_setObs (fs : FullState) (b : Bool) (h : SysInv fs) :
    SysInv ⟨{ fs.cfg with mObserver := b }, fs.workers⟩ := by
  obtain ⟨hWF, hCnt, hOk⟩ := h
  refine ⟨?_, ?_, ?_⟩
  · intro n t ht
    exact hWF n t ht
  · exact hCnt
  · intro w hw
    exact hOk w hw

theorem inv_stop (fs : FullState) (idx : Nat) (h : SysInv fs) :
    SysInv ⟨fs.cfg, fs.workers.eraseIdx idx⟩ := by
  obtain ⟨hWF, hCnt, hOk⟩ := h
  have hsub : List.Sublist (fs.workers.eraseIdx idx) fs.workers :=
    List.eraseIdx_sublist fs.workers idx
  refine ⟨hWF, ?_, ?_⟩
  · intro n i
    exact le_trans (hsub.countP_le _) (hCnt n i)
  · intro w hw
    exact hOk w (hsub.subset hw)

theorem inv_reqVal (fs : FullState) (netId : Nat) (server : DnsTlsServer) (mark now : Nat)
    (h : SysInv fs) :
    SysInv ⟨(requestValidation fs.cfg netId server mark now).cfg,
            fs.workers ++ (requestValidation fs.cfg netId server mark now).spawns⟩ := by
  obtain ⟨hWF, hCnt, hOk⟩ := h
  rcases requestValidation_cases fs.cfg netId server mark now with
    ⟨hc, hsp⟩ | ⟨tracker, target, htr, hsv, hvs, he⟩
  · rw [hc, hsp, List.append_nil]
    exact ⟨hWF, hCnt, hOk⟩
  · rw [he]
    dsimp only
    rw [updateServerState_hit fs.cfg (ServerIdentity.of server) Validation.in_process netId now
      tracker target htr hsv]
    have hkeyT : ServerIdentity.of target = ServerIdentity.of server :=
      (hWF netId tracker htr).2 (ServerIdentity.of server) target hsv
    refine ⟨?_, ?_, ?_⟩
    · intro n t ht
      by_cases hn : n = netId
      · subst hn
        rw [alookup_aset_self] at ht
        cases ht
        constructor
        · rw [akeys_aupd]
          exact (hWF n tracker htr).1
        · intro j r hjr
          by_cases hj : j = ServerIdentity.of server
          · subst hj
            rw [alookup_aupd_self, hsv] at hjr
            cases hjr
            exact hkeyT
          · rw [alookup_aupd_ne _ _ _ _ hj] at hjr
            exact (hWF n tracker htr).2 j r hjr
      · rw [alookup_aset_ne _ _ _ _ hn] at ht
        exact hWF n t ht
    · intro n i
      show (fs.workers
          ++ [(⟨netId, { target with validationState := Validation.in_process }, true⟩
            : Worker)]).countP
            (fun (w : Worker) => decide (w.netId = n ∧ ServerIdentity.of w.server = i)) ≤ 1
      rw [List.countP_append]
      by_cases hni : n = netId ∧ i = ServerIdentity.of server
      · obtain ⟨h1, h2⟩ := hni
        have hzero : fs.workers.countP
            (fun (w : Worker) => decide (w.netId = n ∧ ServerIdentity.of w.server = i)) = 0 := by
          rw [List.countP_eq_zero]
          intro w0 hw0 hp0
          obtain ⟨hp1, hp2⟩ := of_decide_eq_true hp0
          obtain ⟨t0, r0, ht0, hr0, hst0⟩ := hOk w0 hw0
          rw [hp1, h1, htr] at ht0
          cases ht0
          rw [hp2, h2, hsv] at hr0
          cases hr0
          rw [hvs] at hst0
          cases hst0
        rw [hzero]
        simp only [List.countP_cons, List.countP_nil]
        split <;> omega
      · have hple : (([⟨netId, { target with validationState := Validation.in_process }, true⟩]
            : List Worker).countP
              (fun w => decide (w.netId = n ∧ ServerIdentity.of w.server = i))) = 0 := by
          rw [List.countP_eq_zero]
          intro w0 hw0 hp0
          simp only [List.mem_singleton] at hw0
          subst hw0
          obtain ⟨hn1, hi1⟩ := of_decide_eq_true hp0
          exact hni ⟨hn1.symm, hi1.symm.trans hkeyT⟩
        rw [hple]
        have hc' : fs.workers.countP
            (fun w => decide (w.netId = n ∧ ServerIdentity.of w.server = i)) ≤ 1 := hCnt n i
        omega
    · intro w' hw'
      rcases List.mem_append.mp hw' with hw0 | hw0
      · obtain ⟨t0, r0, ht0, hr0, hst0⟩ := hOk w' hw0
        by_cases hn : w'.netId = netId
        · rw [hn, htr] at ht0
          cases ht0
          by_cases hj : ServerIdentity.of w'.server = ServerIdentity.of server
          · rw [hj, hsv] at hr0
            cases hr0
            rw [hvs] at hst0
            cases hst0
          · refine ⟨aupd (ServerIdentity.of server)
                (fun x => { x with validationState := Validation.in_process }) tracker, r0,
                ?_, ?_, hst0⟩
            · rw [hn]
              exact alookup_aset_self _ _ _
            · rw [alookup_aupd_ne _ _ _ _ hj]
              exact hr0
        · exact ⟨t0, r0, by rw [alookup_aset_ne _ _ _ _ hn]; exact ht0, hr0, hst0⟩
      · simp only [List.mem_singleton] at hw0
        subst hw0
        refine ⟨aupd (ServerIdentity.of server)
            (fun x => { x with validationState := Validation.in_process }) tracker,
          { target with validationState := Validation.in_process }, ?_, ?_, rfl⟩
        · exact alookup_aset_self _ _ _
        · have hof : ServerIdentity.of
              ({ target with validationState := Validation.in_process } : DnsTlsServer)
              = ServerIdentity.of server := hkeyT
          rw [hof, alookup_aupd_self, hsv]
          rfl

theorem inv_report (fs : FullState) (w : Worker) (idx : Nat) (success : Bool) (now : Nat)
    (h : SysInv fs) (hwi : fs.workers[idx]? = some w) :
    SysInv ⟨(recordPrivateDnsValidation fs.cfg w.server w.netId success w.isRevalidation now).cfg,
            if (recordPrivateDnsValidation fs.cfg w.server w.netId success w.isRevalidation
              now).reeval then fs.workers else fs.workers.eraseIdx idx⟩ := by
  obtain ⟨hWF, hCnt, hOk⟩ := h
  have hwmem : w ∈ fs.workers := by
    obtain ⟨hlt, hget⟩ := List.getElem?_eq_some.mp hwi
    exact hget ▸ List.getElem_mem hlt
  obtain ⟨t0, r0, ht0, hr0, hst0⟩ := hOk w hwmem
  cases hm : alookup fs.cfg.mPrivateDnsModes w.netId with
  | none =>
    obtain ⟨hc, hre⟩ := recordValidation_gone fs.cfg w.server w.netId success
      w.isRevalidation now (Or.inr hm)
    rw [hc, hre]
    simp only [Bool.false_eq_true, if_false]
    exact inv_stop fs idx ⟨hWF, hCnt, hOk⟩
  | some mode =>
    obtain ⟨st, hcfg, hrein⟩ := recordValidation_spec fs.cfg w.server w.netId success
      w.isRevalidation now t0 mode r0 ht0 hm hr0
    rw [hcfg]
    have hkeyR : ServerIdentity.of r0 = ServerIdentity.of w.server :=
      (hWF w.netId t0 ht0).2 _ r0 hr0
    have hWF' : TransportsWF { fs.cfg with
        mPrivateDnsTransports := aset w.netId (aupd (ServerIdentity.of w.server)
          (fun x => { x with validationState := st }) t0) fs.cfg.mPrivateDnsTransports,
        mPrivateDnsLog :=
          ringPush fs.cfg.mPrivateDnsLog ⟨now, w.netId, ServerIdentity.of w.server, st⟩ } := by
      intro n t ht
      by_cases hn : n = w.netId
      · subst hn
        rw [alookup_aset_self] at ht
        cases ht
        constructor
        · rw [akeys_aupd]
          exact (hWF w.netId t0 ht0).1
        · intro j r hjr
          by_cases hj : j = ServerIdentity.of w.server
          · subst hj
            rw [alookup_aupd_self, hr0] at hjr
            simp only [Option.map_some'] at hjr
            cases hjr
            exact hkeyR
          · rw [alookup_aupd_ne _ _ _ _ hj] at hjr
            exact (hWF w.netId t0 ht0).2 j r hjr
      · rw [alookup_aset_ne _ _ _ _ hn] at ht
        exact hWF n t ht
    by_cases hre : (recordPrivateDnsValidation fs.cfg w.server w.netId success
        w.isRevalidation now).reeval = true
    · have hstin : st = Validation.in_process := hrein hre
      subst hstin
      rw [if_pos hre]
      refine ⟨hWF', ?_, ?_⟩
      · exact hCnt
      · intro w' hw'
        obtain ⟨t0', r0', ht0', hr0', hst0'⟩ := hOk w' hw'
        by_cases hn : w'.netId = w.netId
        · rw [hn, ht0] at ht0'
          cases ht0'
          by_cases hj : ServerIdentity.of w'.server = ServerIdentity.of w.server
          · refine ⟨aupd (ServerIdentity.of w.server)
                (fun x => { x with validationState := Validation.in_process }) t0,
              { r0 with validationState := Validation.in_process }, ?_, ?_, rfl⟩
            · rw [hn]
              exact alookup_aset_self _ _ _
            · rw [hj, alookup_aupd_self, hr0]
              rfl
          · refine ⟨aupd (ServerIdentity.of w.server)
                (fun x => { x with validationState := Validation.in_process }) t0, r0',
                ?_, ?_, hst0'⟩
            · rw [hn]
              exact alookup_aset_self _ _ _
            · rw [alookup_aupd_ne _ _ _ _ hj]
              exact hr0'
        · exact ⟨t0', r0', by rw [alookup_aset_ne _ _ _ _ hn]; exact ht0', hr0', hst0'⟩
    · rw [Bool.not_eq_true] at hre
      rw [hre]
      simp only [Bool.false_eq_true, if_false]
      refine ⟨hWF', ?_, ?_⟩
      · intro n i
        have hsub : List.Sublist (fs.workers.eraseIdx idx) fs.workers :=
          List.eraseIdx_sublist fs.workers idx
        exact le_trans (hsub.countP_le _) (hCnt n i)
      · intro w' hw'
        have hw'mem : w' ∈ fs.workers := (List.eraseIdx_sublist fs.workers idx).subset hw'
        obtain ⟨t0', r0', ht0', hr0', hst0'⟩ := hOk w' hw'mem
        by_cases hn : w'.netId = w.netId
        · rw [hn, ht0] at ht0'
          cases ht0'
          by_cases hj : ServerIdentity.of w'.server = ServerIdentity.of w.server
          · exfalso
            have hp : (fun (x : Worker) => decide (x.netId = w.netId ∧
                ServerIdentity.of x.server = ServerIdentity.of w.server)) w = true := by
              simp
            have hp' : (fun (x : Worker) => decide (x.netId = w.netId ∧
                ServerIdentity.of x.server = ServerIdentity.of w.server)) w' = true := by
              simp [hn, hj]
            have h2 := two_le_countP_of_eraseIdx fs.workers idx w
              (fun (x : Worker) => decide (x.netId = w.netId ∧
                ServerIdentity.of x.server = ServerIdentity.of w.server)) hwi hp w' hw' hp'
            have h1 : fs.workers.countP (fun (x : Worker) => decide (x.netId = w.netId ∧
                ServerIdentity.of x.server = ServerIdentity.of w.server)) ≤ 1 :=
              hCnt w.netId (ServerIdentity.of w.server)
            omega
          · refine ⟨aupd (ServerIdentity.of w.server)
                (fun x => { x with validationState := st }) t0, r0', ?_, ?_, hst0'⟩
            · rw [hn]
              exact alookup_aset_self _ _ _
            · rw [alookup_aupd_ne _ _ _ _ hj]
              exact hr0'
        · exact ⟨t0', r0', by rw [alookup_aset_ne _ _ _ _ hn]; exact ht0', hr0', hst0'⟩

theorem inv_setCfg (parse : String → Option String) (fs : FullState) (netId mark : Nat)
    (servers : List String) (name caCert : String) (now : Nat)
    (h : SysInv fs) (hdf : ¬(name = "" ∧ servers = [])) :
    SysInv ⟨(PrivateDnsConfiguration.set parse fs.cfg netId mark servers name caCert now).cfg,
            fs.workers ++ (PrivateDnsConfiguration.set parse fs.cfg netId mark servers name
              caCert now).spawns⟩ := by
  obtain ⟨hWF, hCnt, hOk⟩ := h
  cases hb : buildTmp parse name caCert mark servers [] with
  | none =>
    have hset : PrivateDnsConfiguration.set parse fs.cfg netId mark servers name caCert now
        = ⟨-22, fs.cfg, [], []⟩ := by
      simp [PrivateDnsConfiguration.set, hb]
    rw [hset]
    dsimp only
    rw [List.append_nil]
    exact ⟨hWF, hCnt, hOk⟩
  | some tmp =>
    have hoff : ¬(name = "" ∧ tmp = []) := by
      rintro ⟨h1, h2⟩
      apply hdf
      refine ⟨h1, ?_⟩
      by_cases hs : servers = []
      · exact hs
      · exact absurd h2 (buildTmp_nonempty parse name caCert mark servers tmp hs hb)
    have hnd : (akeys ((alookup fs.cfg.mPrivateDnsTransports netId).getD [])).Nodup := by
      cases hc : alookup fs.cfg.mPrivateDnsTransports netId with
      | none => simp [akeys]
      | some t =>
        simp only [Option.getD_some]
        exact (hWF netId t hc).1
    have hwk0 : TrackerWK ((alookup fs.cfg.mPrivateDnsTransports netId).getD []) := by
      cases hc : alookup fs.cfg.mPrivateDnsTransports netId with
      | none =>
        simp only [Option.getD_none]
        exact trackerWK_nil
      | some t =>
        simp only [Option.getD_some]
        exact (hWF netId t hc).2
    obtain ⟨hret, hmodes, hobs, hother, tr'', hl, hk, hv, hsp⟩ :=
      set_spec parse fs.cfg netId mark servers name caCert now tmp hb hoff hnd
    have hwkM : TrackerWK
        (mergeNew tmp ((alookup fs.cfg.mPrivateDnsTransports netId).getD [])) :=
      trackerWK_mergeNew tmp _ hwk0
        (buildTmp_wk parse name caCert mark servers [] tmp trackerWK_nil hb)
    have hndM : (akeys
        (mergeNew tmp ((alookup fs.cfg.mPrivateDnsTransports netId).getD []))).Nodup :=
      nodup_akeys_mergeNew tmp _ hnd
    have hf : ∀ j w',
        (match alookup (mergeNew tmp ((alookup fs.cfg.mPrivateDnsTransports netId).getD [])) j with
         | none => none
         | some r => if needsValidation (midRecord tmp j r) then
             some (⟨netId, finalRecord tmp j r, false⟩ : Worker) else none) = some w' →
        ∃ rj, alookup (mergeNew tmp
            ((alookup fs.cfg.mPrivateDnsTransports netId).getD [])) j = some rj ∧
          needsValidation (midRecord tmp j rj) = true ∧
          w' = ⟨netId, finalRecord tmp j rj, false⟩ := by
      intro j w' hfj
      cases hmj : alookup (mergeNew tmp
          ((alookup fs.cfg.mPrivateDnsTransports netId).getD [])) j with
      | none =>
        rw [hmj] at hfj
        cases hfj
      | some rj =>
        rw [hmj] at hfj
        dsimp only at hfj
        by_cases hc : needsValidation (midRecord tmp j rj) = true
        · rw [if_pos hc] at hfj
          cases hfj
          exact ⟨rj, rfl, hc, rfl⟩
        · rw [if_neg hc] at hfj
          cases hfj
    refine ⟨?_, ?_, ?_⟩
    · intro n t ht
      by_cases hn : n = netId
      · subst hn
        rw [hl] at ht
        cases ht
        constructor
        · rw [hk]
          exact hndM
        · intro j r hjr
          rw [hv j] at hjr
          cases hmj : alookup (mergeNew tmp
              ((alookup fs.cfg.mPrivateDnsTransports n).getD [])) j with
          | none =>
            rw [hmj] at hjr
            cases hjr
          | some rj =>
            rw [hmj] at hjr
            simp only [Option.map_some'] at hjr
            cases hjr
            exact (finalRecord_of tmp j rj).trans (hwkM j rj hmj)
      · rw [hother n hn] at ht
        exact hWF n t ht
    · intro n i
      show (fs.workers
          ++ (PrivateDnsConfiguration.set parse fs.cfg netId mark servers name caCert
            now).spawns).countP
          (fun (w : Worker) => decide (w.netId = n ∧ ServerIdentity.of w.server = i)) ≤ 1
      rw [List.countP_append]
      have h2 : ((PrivateDnsConfiguration.set parse fs.cfg netId mark servers name caCert
          now).spawns).countP
          (fun (w : Worker) => decide (w.netId = n ∧ ServerIdentity.of w.server = i)) ≤ 1 := by
        rw [hsp]
        exact countP_le_one_filterMap_key _ _ _ (fun w => ServerIdentity.of w.server) hndM
          (fun a b hab =>
            (by
              obtain ⟨rj, hmj, hc, hbeq⟩ := hf a b hab
              subst hbeq
              exact (finalRecord_of tmp a rj).trans (hwkM a rj hmj)))
          i (fun b hb => (of_decide_eq_true hb).2)
      by_cases hz : ((PrivateDnsConfiguration.set parse fs.cfg netId mark servers name caCert
          now).spawns).countP
          (fun (w : Worker) => decide (w.netId = n ∧ ServerIdentity.of w.server = i)) = 0
      · have h1 : fs.workers.countP
            (fun (w : Worker) => decide (w.netId = n ∧ ServerIdentity.of w.server = i)) ≤ 1 :=
          hCnt n i
        omega
      · obtain ⟨w', hw'sp, hpw'⟩ := List.countP_pos_iff.mp (Nat.pos_of_ne_zero hz)
        rw [hsp] at hw'sp
        obtain ⟨j, hjmem, hfj⟩ := List.mem_filterMap.mp hw'sp
        obtain ⟨rj, hmj, hc, hw'eq⟩ := hf j w' hfj
        subst hw'eq
        obtain ⟨hn1, hi1⟩ := of_decide_eq_true hpw'
        have hij : j = i := by
          rw [← hi1]
          exact ((finalRecord_of tmp j rj).trans (hwkM j rj hmj)).symm
        have hzero : fs.workers.countP
            (fun (w : Worker) => decide (w.netId = n ∧ ServerIdentity.of w.server = i)) = 0 := by
          rw [List.countP_eq_zero]
          intro w0 hw0 hp0
          obtain ⟨hq1, hq2⟩ := of_decide_eq_true hp0
          obtain ⟨t0, r0, ht0, hr0, hst0⟩ := hOk w0 hw0
          rw [hq1, ← hn1] at ht0
          have htr0 : (alookup fs.cfg.mPrivateDnsTransports netId).getD [] = t0 := by
            rw [ht0]
            rfl
          rw [hq2] at hr0
          have hmi : alookup (mergeNew tmp
              ((alookup fs.cfg.mPrivateDnsTransports netId).getD [])) i = some r0 := by
            rw [htr0]
            exact (alookup_mergeNew_of_isSome tmp t0 i (by simp [hr0])).trans hr0
          rw [hij] at hmj hc
          rw [hmi] at hmj
          cases hmj
          have hstates := ((spawnCond_char tmp i rj).mp hc).2
          rcases hstates with hx | hx | hx <;> rw [hst0] at hx <;> cases hx
        rw [hzero]
        omega
    · intro w' hw'
      rcases List.mem_append.mp hw' with hw0 | hw0
      · obtain ⟨t0, r0, ht0, hr0, hst0⟩ := hOk w' hw0
        by_cases hn : w'.netId = netId
        · rw [hn] at ht0
          have htr0 : (alookup fs.cfg.mPrivateDnsTransports netId).getD [] = t0 := by
            rw [ht0]
            rfl
          have hmi : alookup (mergeNew tmp
              ((alookup fs.cfg.mPrivateDnsTransports netId).getD []))
              (ServerIdentity.of w'.server) = some r0 := by
            rw [htr0]
            exact (alookup_mergeNew_of_isSome tmp t0 _ (by simp [hr0])).trans hr0
          refine ⟨tr'', finalRecord tmp (ServerIdentity.of w'.server) r0, ?_, ?_, ?_⟩
          · rw [hn]
            exact hl
          · rw [hv _, hmi]
            rfl
          · exact finalRecord_state_in_process tmp _ r0 hst0
        · exact ⟨t0, r0, by rw [hother _ hn]; exact ht0, hr0, hst0⟩
      · rw [hsp] at hw0
        obtain ⟨j, hjmem, hfj⟩ := List.mem_filterMap.mp hw0
        obtain ⟨rj, hmj, hc, hw'eq⟩ := hf j w' hfj
        subst hw'eq
        refine ⟨tr'', finalRecord tmp j rj, hl, ?_, finalRecord_state_of_cond tmp j rj hc⟩
        show alookup tr'' (ServerIdentity.of (finalRecord tmp j rj)) = some (finalRecord tmp j rj)
        rw [(finalRecord_of tmp j rj).trans (hwkM j rj hmj), hv j, hmj]
        rfl

theorem inv_preserved (parse : String → Option String) (l : Lbl) (fs : FullState)
    (h : SysInv fs) (hdf : discardFree l = true) : SysInv (applyLbl parse l fs) := by
  cases l with
  | setCfg netId mark servers name caCert now =>
    exact inv_setCfg parse fs netId mark servers name caCert now h (of_decide_eq_true hdf)
  | reqVal netId server mark now => exact inv_reqVal fs netId server mark now h
  | clearNet n => simp [discardFree] at hdf
  | report idx success now =>
    cases hwi : fs.workers[idx]? with
    | none => simpa [applyLbl, hwi] using h
    | some w => simpa [applyLbl, hwi] using inv_report fs w idx success now h hwi
  | stop idx => exact inv_stop fs idx h
  | setObs b => exact inv_setObs fs b h

theorem inv_runTrace (parse : String → Option String) (tr : List Lbl)
    (h : ∀ l ∈ tr, discardFree l = true) : SysInv (runTrace parse tr) := by
  suffices hgen : ∀ (tr : List Lbl) (fs : FullState), SysInv fs →
      (∀ l ∈ tr, discardFree l = true) →
      SysInv (tr.foldl (fun s l => applyLbl parse l s) fs) from
    hgen tr initState inv_init h
  intro tr
  induction tr with
  | nil =>
    intro fs hfs _
    exact hfs
  | cons l tr ih =>
    intro fs hfs hall
    rw [List.foldl_cons]
    exact ih _ (inv_preserved parse l fs hfs (hall l (by simp)))
      (fun l' hl' => hall l' (by simp [hl']))

/-- The always-succeeding address parser used for the concrete executions. -/
def parseOk : String → Option String := fun s => some s

/-- A trace that reconfigures, clears the network, then reconfigures again
while the first worker is still running. -/
def cexTrace : List Lbl :=
  [Lbl.setCfg 1 16 ["9.9.9.9"] "" "" 0, Lbl.clearNet 1,
   Lbl.setCfg 1 16 ["9.9.9.9"] "" "" 1]

/-- Claim C1 as stated is false: a worker outlives `clear()` (the code never
signals validation threads to stop), so `set(); clear(); set()` leaves two
running workers for the same (network, identity) pair. -/
theorem C1_single_worker_counterexample :
    ¬(∀ (parse : String → Option String) (tr : List Lbl) (n : Nat) (i : ServerIdentity),
        workerCount (runTrace parse tr) n i ≤ 1) := by
  intro hcl
  have h1 := hcl parseOk cexTrace 1 ⟨"9.9.9.9", ""⟩
  have h2 : workerCount (runTrace parseOk cexTrace) 1 ⟨"9.9.9.9", ""⟩ = 2 := by decide
  omega

/-- Claim C1 (amended): in any execution in which no tracker is ever
discarded (no `clear()` and no `set()` resulting in OFF mode), at most one
worker runs per (network, identity) pair at any instant; `set()` and
`requestValidation()` move the record to `in_process` before spawning and
never spawn for a record already `in_process`. -/
theorem C1_single_worker_amended (parse : String → Option String) (tr : List Lbl)
    (h : ∀ l ∈ tr, discardFree l = true) (n : Nat) (i : ServerIdentity) :
    workerCount (runTrace parse tr) n i ≤ 1 :=
  (inv_runTrace parse tr h).2.1 n i

/-- Witness for the amended claim at a concrete discard-free execution. -/
theorem C1_single_worker_amended_witness :
    (∀ l ∈ [Lbl.setCfg 1 16 ["9.9.9.9"] "" "" 0], discardFree l = true) ∧
    workerCount (runTrace parseOk [Lbl.setCfg 1 16 ["9.9.9.9"] "" "" 0]) 1
      ⟨"9.9.9.9", ""⟩ ≤ 1 :=
  ⟨by decide, C1_single_worker_amended parseOk [Lbl.setCfg 1 16 ["9.9.9.9"] "" "" 0]
    (by decide) 1 ⟨"9.9.9.9", ""⟩⟩

/-! Concrete states and servers used by the witness theorems. -/

/-- The empty manager state. -/
def cfgEmpty : PrivateDnsConfiguration := ⟨[], [], [], false⟩

/-- A concrete active, validated server record. -/
def srvW : DnsTlsServer := ⟨"9.9.9.9", "", "", 16, true, Validation.success⟩

/-- A concrete one-record tracker for network 1. -/
def trW : Tracker := [(⟨"9.9.9.9", ""⟩, srvW)]

/-- A concrete manager state: network 1 opportunistic with tracker `trW`. -/
def cfgW : PrivateDnsConfiguration :=
  ⟨[(1, PrivateDnsMode.opportunistic)], [(1, trW)], [], false⟩

/-- The candidate tracker `buildTmp` produces for the single server "9.9.9.9". -/
def tmpW : Tracker := [(⟨"9.9.9.9", ""⟩, mkServer "9.9.9.9" "" "" 16)]

/-- The candidate tracker `buildTmp` produces for the single server "1.1.1.1". -/
def tmpW2 : Tracker := [(⟨"1.1.1.1", ""⟩, mkServer "1.1.1.1" "" "" 16)]

/-- A parser that rejects exactly the address string "bad". -/
def parseBad : String → Option String := fun s => if s = "bad" then none else some s

theorem trackerWK_singleton (k : ServerIdentity) (r : DnsTlsServer)
    (h : ServerIdentity.of r = k) : TrackerWK [(k, r)] := by
  intro i s hi
  simp only [alookup] at hi
  by_cases hik : i = k
  · rw [if_pos hik] at hi
    cases hi
    rw [h, hik]
  · rw [if_neg hik] at hi
    simp [alookup] at hi

/-- Witness for C2 at a concrete state: network 1 opportunistic, `srvW`
tracked; a successful non-revalidation report. -/
theorem C2_recordValidation_verdict_witness :
    (recordPrivateDnsValidation cfgW srvW 1 true false 0).reeval
      = (!(staleSpec trW srvW) && reevalVerdictSpec PrivateDnsMode.opportunistic true false) ∧
    (∀ stored, alookup trW (ServerIdentity.of srvW) = some stored →
      alookup ((alookup (recordPrivateDnsValidation cfgW srvW 1 true false
          0).cfg.mPrivateDnsTransports 1).getD []) (ServerIdentity.of srvW)
        = some { stored with validationState :=
            (if true && !(staleSpec trW srvW) then Validation.success
             else if !(staleSpec trW srvW)
                 && reevalVerdictSpec PrivateDnsMode.opportunistic true false then
               Validation.in_process
             else Validation.fail) }) :=
  C2_recordValidation_verdict cfgW srvW 1 true false 0 trW PrivateDnsMode.opportunistic
    (by decide) (by decide)

/-- Witness for C3 at a concrete state: re-issuing the same opportunistic
configuration over an already validated record. -/
theorem C3_set_spawn_policy_witness :
    (buildTmp parseOk "" "" 16 ["9.9.9.9"] [] = some tmpW) ∧
    (∀ i rOld,
      alookup (mergeNew tmpW ((alookup cfgW.mPrivateDnsTransports 1).getD [])) i
        = some rOld →
      (((∃ w, w ∈ (PrivateDnsConfiguration.set parseOk cfgW 1 16 ["9.9.9.9"] "" ""
            0).spawns ∧ ServerIdentity.of w.server = i) ↔
        ((alookup tmpW i).isSome = true ∧ (rOld.validationState = Validation.unknown_server
          ∨ rOld.validationState = Validation.fail
          ∨ rOld.validationState = Validation.success_but_expired))) ∧
      ((alookup tmpW i).isSome = true →
        (rOld.validationState = Validation.unknown_server
          ∨ rOld.validationState = Validation.fail
          ∨ rOld.validationState = Validation.success_but_expired) →
        alookup ((alookup (PrivateDnsConfiguration.set parseOk cfgW 1 16 ["9.9.9.9"] "" ""
            0).cfg.mPrivateDnsTransports 1).getD []) i
          = some { rOld with active := true, validationState := Validation.in_process }) ∧
      ((alookup tmpW i).isSome = true →
        (rOld.validationState = Validation.in_process
          ∨ rOld.validationState = Validation.success) →
        alookup ((alookup (PrivateDnsConfiguration.set parseOk cfgW 1 16 ["9.9.9.9"] "" ""
            0).cfg.mPrivateDnsTransports 1).getD []) i
          = some { rOld with active := true }))) :=
  ⟨by decide,
   C3_set_spawn_policy parseOk cfgW 1 16 ["9.9.9.9"] "" "" 0 tmpW (by decide) (by decide)
     (by decide)
     (by
       have h : (alookup cfgW.mPrivateDnsTransports 1).getD [] = [(⟨"9.9.9.9", ""⟩, srvW)] := by
         decide
       rw [h]
       exact trackerWK_singleton _ srvW (by decide))⟩

/-- Witness for C4 at a concrete OFF call: empty name and empty server list. -/
theorem C4_set_mode_determination_witness :
    (PrivateDnsConfiguration.set parseOk cfgEmpty 1 16 [] "" "" 0).ret = 0 ∧
    alookup (PrivateDnsConfiguration.set parseOk cfgEmpty 1 16 [] "" ""
        0).cfg.mPrivateDnsModes 1
      = some (if "" ≠ "" then PrivateDnsMode.strict
          else if ([] : Tracker) ≠ [] then PrivateDnsMode.opportunistic
          else PrivateDnsMode.off) ∧
    ("" = "" → ([] : List String) = [] →
      alookup (PrivateDnsConfiguration.set parseOk cfgEmpty 1 16 [] "" ""
          0).cfg.mPrivateDnsTransports 1 = none ∧
      (PrivateDnsConfiguration.set parseOk cfgEmpty 1 16 [] "" "" 0).spawns = [] ∧
      (PrivateDnsConfiguration.set parseOk cfgEmpty 1 16 [] "" "" 0).notes = [] ∧
      (PrivateDnsConfiguration.set parseOk cfgEmpty 1 16 [] "" ""
        0).cfg.mPrivateDnsLog = cfgEmpty.mPrivateDnsLog ∧
      PrivateDnsConfiguration.getStatus
        (PrivateDnsConfiguration.set parseOk cfgEmpty 1 16 [] "" "" 0).cfg 1
        = ⟨PrivateDnsMode.off, []⟩) :=
  C4_set_mode_determination parseOk cfgEmpty 1 16 [] "" "" 0 [] (by decide)

/-- Witness for C5: replacing the validated server "9.9.9.9" with "1.1.1.1"
deactivates the old record and reclassifies it to `success_but_expired`. -/
theorem C5_no_inactive_success_witness :
    (buildTmp parseOk "" "" 16 ["1.1.1.1"] [] = some tmpW2) ∧
    (∀ tr', alookup (PrivateDnsConfiguration.set parseOk cfgW 1 16 ["1.1.1.1"] "" ""
        0).cfg.mPrivateDnsTransports 1 = some tr' →
      (∀ i rOld,
        alookup ((alookup cfgW.mPrivateDnsTransports 1).getD []) i = some rOld →
        rOld.active = true → rOld.validationState = Validation.success →
        alookup tmpW2 i = none →
        alookup tr' i = some { rOld with
          active := false,
          validationState := Validation.success_but_expired }) ∧
      (∀ i rec, alookup tr' i = some rec →
        ¬(rec.active = false ∧ rec.validationState = Validation.success))) ∧
    alookup ((alookup (PrivateDnsConfiguration.set parseOk cfgW 1 16 ["1.1.1.1"] "" ""
        0).cfg.mPrivateDnsTransports 1).getD []) ⟨"9.9.9.9", ""⟩
      = some ⟨"9.9.9.9", "", "", 16, false, Validation.success_but_expired⟩ :=
  ⟨by decide,
   C5_no_inactive_success parseOk cfgW 1 16 ["1.1.1.1"] "" "" 0 tmpW2 (by decide) (by decide)
     (by decide),
   by decide⟩

/-- Witness for C7 at a concrete failing parse. -/
theorem C7_set_parse_failure_witness :
    PrivateDnsConfiguration.set parseBad cfgEmpty 1 16 ["bad"] "" "" 0
      = ⟨-22, cfgEmpty, [], []⟩ :=
  C7_set_parse_failure parseBad cfgEmpty 1 16 ["bad"] "" "" 0 ⟨"bad", by decide, by decide⟩

/-- Witness for C9 at a concrete already-tracked identity. -/
theorem C9_set_preserves_existing_records_witness :
    (buildTmp parseOk "" "" 16 ["9.9.9.9"] [] = some tmpW) ∧
    (∃ rNew,
      alookup ((alookup (PrivateDnsConfiguration.set parseOk cfgW 1 16 ["9.9.9.9"] "" ""
          0).cfg.mPrivateDnsTransports 1).getD []) ⟨"9.9.9.9", ""⟩ = some rNew ∧
      rNew.sockaddr = srvW.sockaddr ∧
      rNew.name = srvW.name ∧
      rNew.certificate = srvW.certificate ∧
      rNew.mark = srvW.mark ∧
      rNew.active = (alookup tmpW ⟨"9.9.9.9", ""⟩).isSome ∧
      rNew.validationState =
        (if (alookup tmpW ⟨"9.9.9.9", ""⟩).isSome = false
            ∧ srvW.validationState = Validation.success then
          Validation.success_but_expired
        else if (alookup tmpW ⟨"9.9.9.9", ""⟩).isSome = true
            ∧ (srvW.validationState = Validation.unknown_server
              ∨ srvW.validationState = Validation.fail
              ∨ srvW.validationState = Validation.success_but_expired) then
          Validation.in_process
        else srvW.validationState)) :=
  ⟨by decide,
   C9_set_preserves_existing_records parseOk cfgW 1 16 ["9.9.9.9"] "" "" 0 tmpW
     ⟨"9.9.9.9", ""⟩ srvW (by decide) (by decide) (by decide) (by decide)⟩

/-- Witness for C10 at a concrete report against a network with no state. -/
theorem C10_recordValidation_gone_network_witness :
    recordPrivateDnsValidation cfgEmpty srvW 1 true false 0
      = ⟨false, cfgEmpty, [],
         if cfgEmpty.mObserver then
           [((ServerIdentity.of srvW).sockaddr, Validation.fail, 1)] else []⟩ :=
  C10_recordValidation_gone_network cfgEmpty srvW 1 true false 0 (Or.inl (by decide))
